import Mathlib

set_option maxHeartbeats 1000000

/-! Shallow embedding of the archscrapper repository: `src/scrapperv1.py` and
`src/scrapper_simple.py`.  Network fetches are modelled as an explicit
function argument from URL to outcome; BeautifulSoup navigation is modelled
over an explicit DOM tree; Python exceptions are modelled with explicit
outcome constructors (`Exception` and `KeyboardInterrupt` separately, since
`except Exception` does not catch the latter). -/

/-- A scraped record, mirroring the `JobRow` dataclass of both scripts. -/
structure JobRow where
  firm_name : String
  role_title : String
  phone : Option String
  website : Option String
deriving DecidableEq, Repr

/-- The deduplication key used by `drop_duplicates(subset=["firm_name", "role_title"])`. -/
def jobKey (r : JobRow) : String × String := (r.firm_name, r.role_title)

/-- Core of `drop_duplicates(keep="first")`: drop a row whose key was already seen. -/
def dedupAux : List JobRow → List (String × String) → List JobRow
  | [], _ => []
  | r :: rest, seen =>
    if jobKey r ∈ seen then dedupAux rest seen
    else r :: dedupAux rest (jobKey r :: seen)

/-- `df.drop_duplicates(subset=["firm_name", "role_title"])` with the default
`keep="first"`: keep the first row of each key, preserving row order. -/
def dedupRows (rows : List JobRow) : List JobRow := dedupAux rows []

/-- Leading run of whitespace removed. -/
def dropWs (l : List Char) : List Char := l.dropWhile Char.isWhitespace

/-- Python `str.strip()` over a character list: whitespace removed from both ends. -/
def stripChars (l : List Char) : List Char :=
  ((dropWs l).reverse.dropWhile Char.isWhitespace).reverse

/-- Python `str.strip()`. -/
def pyStrip (s : String) : String := String.mk (stripChars s.toList)

/-- `sep.join(pieces)`. -/
def joinSep (sep : String) : List String → String
  | [] => ""
  | [x] => x
  | x :: xs => x ++ sep ++ joinSep sep xs

/-- Whether the second list is a leading segment of the first. -/
def listStarts : List Char → List Char → Bool
  | _, [] => true
  | [], _ :: _ => false
  | c :: s, p :: ps => c == p && listStarts s ps

/-- Python `s.startswith(pre)`. -/
def strStarts (s pre : String) : Bool := listStarts s.toList pre.toList

/-- Python `c in s` for a single character. -/
def strHasChar (s : String) (c : Char) : Bool := s.toList.contains c

/-- Python `s.replace(old, new)` for single-character patterns, as in
`city.replace(" ", "-")`. -/
def replaceChar (s : String) (old new : Char) : String :=
  String.mk (s.toList.map (fun c => if c == old then new else c))

/-- A parsed HTML node, the fragment of the BeautifulSoup document model that
the scrapers navigate: an element carries a tag name, a class list, attributes
and children; a text node carries a string. -/
inductive Node where
  | text (s : String)
  | elem (tag : String) (classes : List String) (attrs : List (String × String)) (children : List Node)
deriving Repr

mutual

/-- All descendant nodes of a node, in document (pre-)order. -/
def descendants : Node → List Node
  | .text _ => []
  | .elem _ _ _ cs => descList cs

/-- All nodes of a forest in document order, each followed by its descendants. -/
def descList : List Node → List Node
  | [] => []
  | c :: cs => c :: (descendants c ++ descList cs)

end

/-- Whether a node is an element with the given tag name. -/
def Node.tagIs (t : String) : Node → Bool
  | .text _ => false
  | .elem tg _ _ _ => tg == t

/-- Whether a node is an element carrying the given CSS class. -/
def Node.hasClass (c : String) : Node → Bool
  | .text _ => false
  | .elem _ cls _ _ => cls.contains c

/-- `soup.select(".cls")`: every descendant element carrying the class, in document order. -/
def selectClass (cls : String) (n : Node) : List Node :=
  (descendants n).filter (Node.hasClass cls)

/-- `soup.select("article.cls")`: descendant `article` elements carrying the class. -/
def selectTagClass (t cls : String) (n : Node) : List Node :=
  (descendants n).filter (fun d => Node.tagIs t d && Node.hasClass cls d)

/-- `tag.select_one(".cls")`: the first descendant element with the class, if any. -/
def selectOne (cls : String) (n : Node) : Option Node :=
  (selectClass cls n).head?

/-- `tag.a` and `tag.select_one("a")`: the first descendant anchor element, if any. -/
def firstA (n : Node) : Option Node :=
  ((descendants n).filter (Node.tagIs "a")).head?

/-- Attribute lookup `tag[k]`, as an `Option` (Python raises `KeyError` when absent). -/
def getAttr (n : Node) (k : String) : Option String :=
  match n with
  | .text _ => none
  | .elem _ _ attrs _ => (attrs.find? (fun p => p.1 == k)).map (fun p => p.2)

/-- `soup.find_all("a", href=True)` followed by `a["href"]`: the `href` values of
all anchor elements that have one, in document order. -/
def hrefLinks (n : Node) : List String :=
  (descendants n).filterMap (fun d =>
    if Node.tagIs "a" d then getAttr d "href" else none)

mutual

/-- The text pieces (`NavigableString`s) of a node's subtree, in document order. -/
def textPieces : Node → List String
  | .text s => [s]
  | .elem _ _ _ cs => textPiecesList cs

/-- The text pieces of a forest, in document order. -/
def textPiecesList : List Node → List String
  | [] => []
  | c :: cs => textPieces c ++ textPiecesList cs

end

/-- `get_text(sep, strip=True)`: strip each text piece, drop the empty ones,
join with the separator. -/
def getTextStrip (n : Node) (sep : String) : String :=
  joinSep sep (((textPieces n).map pyStrip).filter (fun s => s != ""))

/-- A fetched HTTP response: the raw body text together with its parsed DOM
(`BeautifulSoup(raw, "html.parser")`, left abstract). -/
structure Doc where
  raw : String
  dom : Node
deriving Repr

/-- Outcome of one `requests.get`: a response, a raised `Exception`
(timeout, connection error, ...), or a `KeyboardInterrupt` delivered during
the blocking call. -/
inductive FetchOutcome where
  | ok (doc : Doc)
  | exn
  | interrupt
deriving Repr

/-- The network environment: what each URL returns during this run. -/
abbrev Fetcher := String → FetchOutcome

/-- Result of running a Python fragment: a value, an uncaught `Exception`
propagating, or a propagating `KeyboardInterrupt`. -/
inductive PyRes (α : Type) where
  | ok (a : α)
  | exn
  | interrupt
deriving Repr, DecidableEq

/-- An abnormal way for a scrape loop to stop. -/
inductive Fail where
  | exn
  | interrupt
deriving Repr, DecidableEq

/-- The regex class `[-.\s]` of `PHONE_RE` (ASCII model of `\s`). -/
def isSep (c : Char) : Bool := c == '-' || c == '.' || c.isWhitespace

/-- A word character, for the `\b` boundaries of `PHONE_RE` (ASCII model of `\w`). -/
def isWordChar (c : Char) : Bool := c.isAlphanum || c == '_'

/-- Exactly `n` digit characters taken from the front, with the rest. -/
def takeDigits : Nat → List Char → Option (List Char × List Char)
  | 0, s => some ([], s)
  | _ + 1, [] => none
  | n + 1, c :: s =>
    if c.isDigit then (takeDigits n s).map (fun p => (c :: p.1, p.2)) else none

/-- The common tail `\d{3}[-.\s]\d{4}\b` of `PHONE_RE`; returns the matched
characters and the rest of the input. -/
def matchTail (s : List Char) : Option (List Char × List Char) :=
  match takeDigits 3 s with
  | none => none
  | some (d2, r1) =>
    match r1 with
    | [] => none
    | c :: r2 =>
      if isSep c then
        match takeDigits 4 r2 with
        | none => none
        | some (d3, r3) =>
          match r3 with
          | [] => some (d2 ++ c :: d3, [])
          | c2 :: _ => if isWordChar c2 then none else some (d2 ++ c :: d3, r3)
      else none

/-- The first alternative `\(\d{3}\)\s?` of `PHONE_RE`, followed by the common
tail; the optional whitespace is greedy, with backtracking. -/
def matchParen (s : List Char) : Option (List Char) :=
  match s with
  | [] => none
  | c0 :: r0 =>
    if c0 = '(' then
      match takeDigits 3 r0 with
      | none => none
      | some (d1, r1) =>
        match r1 with
        | [] => none
        | c1 :: r2 =>
          if c1 = ')' then
            match r2 with
            | c :: r3 =>
              if c.isWhitespace then
                match matchTail r3 with
                | some p => some ('(' :: (d1 ++ ')' :: c :: p.1))
                | none => (matchTail r2).map (fun p => '(' :: (d1 ++ ')' :: p.1))
              else (matchTail r2).map (fun p => '(' :: (d1 ++ ')' :: p.1))
            | [] => (matchTail r2).map (fun p => '(' :: (d1 ++ ')' :: p.1))
          else none
    else none

/-- The leading `\b` of the second alternative of `PHONE_RE`: the next
character is a digit, so the boundary holds iff the previous character is
absent or not a word character. -/
def boundaryOk : Option Char → Bool
  | none => true
  | some p => !isWordChar p

/-- The second alternative `\b\d{3}[-.\s]` of `PHONE_RE`, followed by the
common tail; `prev` is the character before the current position. -/
def matchBare (prev : Option Char) (s : List Char) : Option (List Char) :=
  if boundaryOk prev then
    match takeDigits 3 s with
    | none => none
    | some (d1, r1) =>
      match r1 with
      | [] => none
      | c :: r2 =>
        if isSep c then (matchTail r2).map (fun p => d1 ++ c :: p.1) else none
  else none

/-- `PHONE_RE` attempted at a single position (alternation, first branch first). -/
def matchPhoneAt (prev : Option Char) (s : List Char) : Option (List Char) :=
  match matchParen s with
  | some m => some m
  | none => matchBare prev s

/-- `re.search` scanning: try each position left to right, keep the first match. -/
def searchFrom (prev : Option Char) : List Char → Option (List Char)
  | [] => none
  | c :: rest =>
    match matchPhoneAt prev (c :: rest) with
    | some m => some m
    | none => searchFrom (some c) rest

/-- `PHONE_RE.search(text)`, returning the matched substring (`m.group()`). -/
def phoneSearch (text : String) : Option String :=
  (searchFrom none text.toList).map String.mk

/-- The character just before position `i` of `l`, `none` at the start. -/
def prevAt (l : List Char) (i : Nat) : Option Char :=
  if i = 0 then none else l.get? (i - 1)

/-- The link filter of `scrapperv1.get_contact_info`:
`href.startswith("http") and "@" not in href and not href.startswith("mailto:")`. -/
def linkOkV1 (h : String) : Bool :=
  strStarts h "http" && !strHasChar h '@' && !strStarts h "mailto:"

/-- The link filter of `scrapper_simple.get_contact_info`:
`h.startswith("http") and "@" not in h and not h.startswith("mailto")`. -/
def linkOkSimple (h : String) : Bool :=
  strStarts h "http" && !strHasChar h '@' && !strStarts h "mailto"

/-- The spec's phrase for C7, for comparison with the source's `startswith("http")`:
begins with an actual HTTP or HTTPS scheme. -/
def startsWithHttpScheme (h : String) : Bool :=
  strStarts h "http://" || strStarts h "https://"

/-- `get_contact_info` of `scrapperv1.py`: fetch the detail page (a failed
fetch returns both fields absent), take the first `PHONE_RE` match of the
visible text and the first qualifying link; if a website was found but no
phone, fetch the website and search its raw content, absorbing fetch errors. -/
def getContactInfoV1 (fetch : Fetcher) (url : String) : PyRes (Option String × Option String) :=
  match fetch url with
  | .exn => .ok (none, none)
  | .interrupt => .interrupt
  | .ok doc =>
    let phone := phoneSearch (getTextStrip doc.dom " ")
    let website := (hrefLinks doc.dom).find? linkOkV1
    match website with
    | none => .ok (phone, none)
    | some w =>
      match phone with
      | some p => .ok (some p, some w)
      | none =>
        match fetch w with
        | .ok doc2 =>
          match phoneSearch doc2.raw with
          | some p => .ok (some p, some w)
          | none => .ok (none, some w)
        | .exn => .ok (none, some w)
        | .interrupt => .interrupt

/-- `get_contact_info` of `scrapper_simple.py`: one fetch, first phone match of
the visible text, first qualifying link; the whole body is inside
`try ... except Exception`, and there is no secondary-page fallback. -/
def getContactInfoSimple (fetch : Fetcher) (url : String) : PyRes (Option String × Option String) :=
  match fetch url with
  | .exn => .ok (none, none)
  | .interrupt => .interrupt
  | .ok doc =>
    let phone := phoneSearch (getTextStrip doc.dom " ")
    let site := (hrefLinks doc.dom).find? linkOkSimple
    .ok (phone, site)

/-- Hex digit for percent-encoding (uppercase, as `urllib.parse.quote` emits). -/
def hexUpper (n : Nat) : Char := if n < 10 then Char.ofNat (48 + n) else Char.ofNat (55 + n)

/-- UTF-8 bytes of a character, for percent-encoding. -/
def utf8Bytes (c : Char) : List Nat :=
  let n := c.toNat
  if n < 128 then [n]
  else if n < 2048 then [192 + n / 64, 128 + n % 64]
  else if n < 65536 then [224 + n / 4096, 128 + n / 64 % 64, 128 + n % 64]
  else [240 + n / 262144, 128 + n / 4096 % 64, 128 + n / 64 % 64, 128 + n % 64]

/-- Percent-encode one character. -/
def pctEncode (c : Char) : String :=
  String.mk ((utf8Bytes c).foldr (fun b acc => '%' :: hexUpper (b / 16) :: hexUpper (b % 16) :: acc) [])

/-- The characters `urllib.parse.quote` never encodes. -/
def alwaysSafe (c : Char) : Bool := c.isAlphanum || c == '_' || c == '.' || c == '-' || c == '~'

/-- Modelled from the library call `requests.utils.quote` with its default
`safe="/"`, used by `scrape_aia_career_center` in `scrapperv1.py`. -/
def urlQuote (s : String) : String :=
  s.toList.foldl (fun acc c =>
    acc ++ (if alwaysSafe c || c == '/' then String.mk [c] else pctEncode c)) ""

/-- Modelled from the `quote_plus` encoding `requests` applies to `params=`
(space becomes `+`, no extra safe characters), used by `scrape_aia` in
`scrapper_simple.py`. -/
def quotePlus (s : String) : String :=
  s.toList.foldl (fun acc c =>
    acc ++ (if c == ' ' then "+" else if alwaysSafe c then String.mk [c] else pctEncode c)) ""

/-- The Archinect listing URL, `f"https://archinect.com/jobs/{state}/{city.replace(' ', '-')}"`
(identical in both scripts). -/
def archUrl (state city : String) : String :=
  "https://archinect.com/jobs/" ++ state ++ "/" ++ replaceChar city ' ' '-' 

/-- The AIA Career Center search URL as built by `scrapperv1.py`. -/
def aiaUrlV1 (city state : String) : String :=
  "https://careercenter.aia.org/jobs/?keywords=&location=" ++ urlQuote (city ++ ", " ++ state)

/-- The AIA Career Center search URL as `scrapper_simple.py` has `requests`
build it from `params={"keywords": "", "location": f"{city}, {state}"}`. -/
def aiaUrlSimple (city state : String) : String :=
  "https://careercenter.aia.org/jobs/?keywords=&location=" ++ quotePlus (city ++ ", " ++ state)

/-- The card loop of `scrapperv1.scrape_archinect`.  Cards missing the firm or
role element are skipped; `card.a["href"]` is outside any `try`, so a card
with no anchor (or an anchor without `href`) raises out of the generator. -/
def scrapeCardsArchV1 (fetch : Fetcher) : List Node → List JobRow → List JobRow × Option Fail
  | [], acc => (acc, none)
  | card :: rest, acc =>
    match selectOne "job-listing-title" card, selectOne "job-position" card with
    | some firmTag, some roleTag =>
      match firstA card with
      | none => (acc, some .exn)
      | some aTag =>
        match getAttr aTag "href" with
        | none => (acc, some .exn)
        | some href =>
          match getContactInfoV1 fetch ("https://archinect.com" ++ href) with
          | .interrupt => (acc, some .interrupt)
          | .exn => (acc, some .exn)
          | .ok (ph, site) =>
            scrapeCardsArchV1 fetch rest
              (acc ++ [⟨getTextStrip firmTag "", getTextStrip roleTag "", ph, site⟩])
    | _, _ => scrapeCardsArchV1 fetch rest acc

/-- `scrapperv1.scrape_archinect(city, state)`: only the initial fetch is
inside `try ... except Exception` (which yields nothing); a `KeyboardInterrupt`
is not caught. -/
def scrapeArchinectV1 (fetch : Fetcher) (city state : String) : List JobRow × Option Fail :=
  match fetch (archUrl state city) with
  | .exn => ([], none)
  | .interrupt => ([], some .interrupt)
  | .ok doc => scrapeCardsArchV1 fetch (selectClass "job-listing" doc.dom) []

/-- The card loop of `scrapperv1.scrape_aia_career_center`: like the Archinect
one but with the AIA card classes and the detail URL taken directly from
`card.select_one("a")["href"]`, again outside any `try`. -/
def scrapeCardsAiaV1 (fetch : Fetcher) : List Node → List JobRow → List JobRow × Option Fail
  | [], acc => (acc, none)
  | card :: rest, acc =>
    match selectOne "job-listing__info--name" card, selectOne "job-listing__info--title" card with
    | some firmTag, some roleTag =>
      match firstA card with
      | none => (acc, some .exn)
      | some aTag =>
        match getAttr aTag "href" with
        | none => (acc, some .exn)
        | some href =>
          match getContactInfoV1 fetch href with
          | .interrupt => (acc, some .interrupt)
          | .exn => (acc, some .exn)
          | .ok (ph, site) =>
            scrapeCardsAiaV1 fetch rest
              (acc ++ [⟨getTextStrip firmTag "", getTextStrip roleTag "", ph, site⟩])
    | _, _ => scrapeCardsAiaV1 fetch rest acc

/-- `scrapperv1.scrape_aia_career_center(city, state)`. -/
def scrapeAiaV1 (fetch : Fetcher) (city state : String) : List JobRow × Option Fail :=
  match fetch (aiaUrlV1 city state) with
  | .exn => ([], none)
  | .interrupt => ([], some .interrupt)
  | .ok doc => scrapeCardsAiaV1 fetch (selectTagClass "article" "job-listing" doc.dom) []

/-- The card loop of `scrapper_simple.scrape_archinect`.  The whole loop sits
inside `try ... except Exception`, so a card with no anchor ends the loop and
the rows accumulated so far are returned; only a `KeyboardInterrupt` escapes. -/
def scrapeCardsArchSimple (fetch : Fetcher) : List Node → List JobRow → List JobRow × Option Fail
  | [], acc => (acc, none)
  | card :: rest, acc =>
    match selectOne "job-listing-title" card, selectOne "job-position" card with
    | some t1, some t2 =>
      match firstA card with
      | none => (acc, none)
      | some aTag =>
        match getAttr aTag "href" with
        | none => (acc, none)
        | some href =>
          match getContactInfoSimple fetch ("https://archinect.com" ++ href) with
          | .interrupt => (acc, some .interrupt)
          | .exn => (acc, none)
          | .ok (ph, site) =>
            scrapeCardsArchSimple fetch rest
              (acc ++ [⟨getTextStrip t1 "", getTextStrip t2 "", ph, site⟩])
    | _, _ => scrapeCardsArchSimple fetch rest acc

/-- `scrapper_simple.scrape_archinect(city, state)`. -/
def scrapeArchinectSimple (fetch : Fetcher) (city state : String) : List JobRow × Option Fail :=
  match fetch (archUrl state city) with
  | .exn => ([], none)
  | .interrupt => ([], some .interrupt)
  | .ok doc => scrapeCardsArchSimple fetch (selectClass "job-listing" doc.dom) []

/-- The card loop of `scrapper_simple.scrape_aia`, fully inside
`try ... except Exception`. -/
def scrapeCardsAiaSimple (fetch : Fetcher) : List Node → List JobRow → List JobRow × Option Fail
  | [], acc => (acc, none)
  | card :: rest, acc =>
    match selectOne "job-listing__info--name" card, selectOne "job-listing__info--title" card with
    | some t1, some t2 =>
      match firstA card with
      | none => (acc, none)
      | some aTag =>
        match getAttr aTag "href" with
        | none => (acc, none)
        | some href =>
          match getContactInfoSimple fetch href with
          | .interrupt => (acc, some .interrupt)
          | .exn => (acc, none)
          | .ok (ph, site) =>
            scrapeCardsAiaSimple fetch rest
              (acc ++ [⟨getTextStrip t1 "", getTextStrip t2 "", ph, site⟩])
    | _, _ => scrapeCardsAiaSimple fetch rest acc

/-- `scrapper_simple.scrape_aia(city, state)`. -/
def scrapeAiaSimple (fetch : Fetcher) (city state : String) : List JobRow × Option Fail :=
  match fetch (aiaUrlSimple city state) with
  | .exn => ([], none)
  | .interrupt => ([], some .interrupt)
  | .ok doc => scrapeCardsAiaSimple fetch (selectTagClass "article" "job-listing" doc.dom) []

/-- Outcome of the census request in `get_small_towns`: the JSON payload
(header row included), an `Exception` (`raise_for_status`, timeout, bad
JSON), or a `KeyboardInterrupt`.  The key is the population period the URL
embeds (the code only ever builds the `"2023"` URL). -/
inductive CensusOutcome where
  | ok (payload : List (String × String × String × String))
  | httpError
  | interrupt
deriving Repr, DecidableEq

/-- Validity of the digit part accepted by Python's `int()`: digits with
single underscores strictly between digits. -/
def digitsUndRest : List Char → Bool
  | [] => true
  | '_' :: c :: rest => c.isDigit && digitsUndRest rest
  | '_' :: [] => false
  | c :: rest => c.isDigit && digitsUndRest rest

/-- Nonempty digit run, possibly with grouping underscores. -/
def digitsUnd : List Char → Bool
  | [] => false
  | c :: rest => c.isDigit && digitsUndRest rest

/-- Python's `int(str)`: strip whitespace, optional sign, digits with
grouping underscores; `none` models the `ValueError` branch. -/
def pyInt (s : String) : Option Int :=
  let t := stripChars s.toList
  let signed : Int × List Char :=
    match t with
    | '+' :: r => (1, r)
    | '-' :: r => (-1, r)
    | r => (1, r)
  if digitsUnd signed.2 then
    some (signed.1 * ((signed.2.filter Char.isDigit).foldl
      (fun acc c => acc * 10 + (Int.ofNat (c.toNat - 48))) 0))
  else none

/-- Python's `name.partition(",")`: the part before the first comma and the
part after it (empty when there is no comma). -/
def partitionComma (s : String) : String × String :=
  let pre := s.toList.takeWhile (fun c => c != ',')
  let post := s.toList.drop (pre.length + 1)
  (String.mk pre, String.mk post)

/-- The `STATE_LOOKUP` table of `scrapperv1.py`. -/
def STATE_LOOKUP : List (String × String) := [
  ("Alabama", "AL"), ("Alaska", "AK"), ("Arizona", "AZ"), ("Arkansas", "AR"),
  ("California", "CA"), ("Colorado", "CO"), ("Connecticut", "CT"), ("Delaware", "DE"),
  ("District of Columbia", "DC"), ("Florida", "FL"), ("Georgia", "GA"), ("Hawaii", "HI"),
  ("Idaho", "ID"), ("Illinois", "IL"), ("Indiana", "IN"), ("Iowa", "IA"), ("Kansas", "KS"),
  ("Kentucky", "KY"), ("Louisiana", "LA"), ("Maine", "ME"), ("Maryland", "MD"), ("Massachusetts", "MA"),
  ("Michigan", "MI"), ("Minnesota", "MN"), ("Mississippi", "MS"), ("Missouri", "MO"),
  ("Montana", "MT"), ("Nebraska", "NE"), ("Nevada", "NV"), ("New Hampshire", "NH"),
  ("New Jersey", "NJ"), ("New Mexico", "NM"), ("New York", "NY"), ("North Carolina", "NC"),
  ("North Dakota", "ND"), ("Ohio", "OH"), ("Oklahoma", "OK"), ("Oregon", "OR"),
  ("Pennsylvania", "PA"), ("Rhode Island", "RI"), ("South Carolina", "SC"), ("South Dakota", "SD"),
  ("Tennessee", "TN"), ("Texas", "TX"), ("Utah", "UT"), ("Vermont", "VT"), ("Virginia", "VA"),
  ("Washington", "WA"), ("West Virginia", "WV"), ("Wisconsin", "WI"), ("Wyoming", "WY")]

/-- `STATE_LOOKUP.get(state_name)`. -/
def stateLookup (s : String) : Option String :=
  (STATE_LOOKUP.find? (fun p => p.1 == s)).map (fun p => p.2)

/-- The per-place body of the `get_small_towns` loop: parse the population
(`ValueError` means skip), keep it only when at most `MAX_POPULATION = 50000`,
split the name at the first comma, and map the state name through
`STATE_LOOKUP` (unmapped states are skipped). -/
def extractPlace : String × String × String × String → Option (String × String)
  | (name, pop, _, _) =>
    match pyInt pop with
    | none => none
    | some p =>
      if p ≤ 50000 then
        match stateLookup (pyStrip (partitionComma name).2) with
        | some abbr => some (pyStrip (partitionComma name).1, abbr)
        | none => none
      else none

/-- `scrapperv1.get_small_towns()`: one request to the 2023 population
endpoint; `raise_for_status()` turns an error status into a raised
`Exception`; on success the header row is dropped and the places are
filtered. -/
def getSmallTowns (census : String → CensusOutcome) : PyRes (List (String × String)) :=
  match census "2023" with
  | .httpError => .exn
  | .interrupt => .interrupt
  | .ok payload => .ok ((payload.drop 1).filterMap extractPlace)

/-- The location loop of `scrapperv1.main`: per town, Archinect rows then AIA
rows are appended; any exception or interrupt escaping a scrape aborts the
loop (the rows list lives in `main`, so rows already appended are kept in
scope but the loop stops). -/
def runLocationsV1 (fetch : Fetcher) : List (String × String) → List JobRow → List JobRow × Option Fail
  | [], acc => (acc, none)
  | (city, state) :: rest, acc =>
    match scrapeArchinectV1 fetch city state with
    | (r1, some f) => (acc ++ r1, some f)
    | (r1, none) =>
      match scrapeAiaV1 fetch city state with
      | (r2, some f) => (acc ++ r1 ++ r2, some f)
      | (r2, none) => runLocationsV1 fetch rest (acc ++ r1 ++ r2)

/-- The location loop of `scrapper_simple.main` over the fixed `LOCATIONS`
list; only a `KeyboardInterrupt` can abort it. -/
def runLocationsSimple (fetch : Fetcher) : List (String × String) → List JobRow → List JobRow × Option Fail
  | [], acc => (acc, none)
  | (city, state) :: rest, acc =>
    match scrapeArchinectSimple fetch city state with
    | (r1, some f) => (acc ++ r1, some f)
    | (r1, none) =>
      match scrapeAiaSimple fetch city state with
      | (r2, some f) => (acc ++ r1 ++ r2, some f)
      | (r2, none) => runLocationsSimple fetch rest (acc ++ r1 ++ r2)

/-- The `LOCATIONS` constant of `scrapper_simple.py`. -/
def LOCATIONS : List (String × String) :=
  [("Fort Worth", "TX"), ("Bozeman", "MT"), ("Asheville", "NC")]

/-- How a `main()` call ends: rows exported to the spreadsheet (deduplicated),
the early `"No data gathered"` return, an `Exception` propagating out, or a
`KeyboardInterrupt` propagating out. -/
inductive MainOutcome where
  | exported (rows : List JobRow)
  | noData
  | exnOut
  | interruptOut
deriving Repr, DecidableEq

/-- `scrapperv1.main()`. -/
def mainV1 (census : String → CensusOutcome) (fetch : Fetcher) : MainOutcome :=
  match getSmallTowns census with
  | .exn => .exnOut
  | .interrupt => .interruptOut
  | .ok towns =>
    match runLocationsV1 fetch towns [] with
    | (_, some .exn) => .exnOut
    | (_, some .interrupt) => .interruptOut
    | (rows, none) =>
      if rows.isEmpty then .noData else .exported (dedupRows rows)

/-- `scrapper_simple.main()` (its `__main__` block has no handler, so both
kinds of propagating raise crash the process). -/
def mainSimple (fetch : Fetcher) : MainOutcome :=
  match runLocationsSimple fetch LOCATIONS [] with
  | (_, some .exn) => .exnOut
  | (_, some .interrupt) => .interruptOut
  | (rows, none) =>
    if rows.isEmpty then .noData else .exported (dedupRows rows)

/-- How the `scrapperv1.py` process ends: an output file written with the
given rows, a clean exit with no output file, or an uncaught traceback. -/
inductive ScriptOutcome where
  | savedFile (rows : List JobRow)
  | cleanNoOutput
  | crashed
deriving Repr, DecidableEq

/-- The `__main__` block of `scrapperv1.py`: run `main()`, catching only
`KeyboardInterrupt` (which prints `"Aborted by user."` and exits cleanly,
without writing any output). -/
def scriptV1 (census : String → CensusOutcome) (fetch : Fetcher) : ScriptOutcome :=
  match mainV1 census fetch with
  | .exported rows => .savedFile rows
  | .noData => .cleanNoOutput
  | .exnOut => .crashed
  | .interruptOut => .cleanNoOutput

/-! ## Properties of deduplication -/

lemma dedupAux_sublist (rows : List JobRow) : ∀ seen, (dedupAux rows seen).Sublist rows := by
  induction rows with
  | nil => intro seen; simp [dedupAux]
  | cons r rest ih =>
    intro seen
    simp only [dedupAux]
    by_cases h : jobKey r ∈ seen
    · rw [if_pos h]; exact List.Sublist.cons r (ih seen)
    · rw [if_neg h]; exact List.Sublist.cons₂ r (ih _)

lemma dedupAux_not_seen (rows : List JobRow) : ∀ seen r, r ∈ dedupAux rows seen →
    jobKey r ∉ seen := by
  induction rows with
  | nil => intro seen r h; simp [dedupAux] at h
  | cons x rest ih =>
    intro seen r h
    simp only [dedupAux] at h
    by_cases hx : jobKey x ∈ seen
    · rw [if_pos hx] at h; exact ih seen r h
    · rw [if_neg hx] at h
      rcases List.mem_cons.mp h with rfl | hmem
      · exact hx
      · intro hc
        exact ih _ r hmem (List.mem_cons_of_mem _ hc)

lemma dedupAux_keys_nodup (rows : List JobRow) : ∀ seen, ((dedupAux rows seen).map jobKey).Nodup := by
  induction rows with
  | nil => intro seen; simp [dedupAux]
  | cons x rest ih =>
    intro seen
    simp only [dedupAux]
    by_cases hx : jobKey x ∈ seen
    · rw [if_pos hx]; exact ih seen
    · rw [if_neg hx]
      simp only [List.map_cons, List.nodup_cons]
      refine ⟨fun hmem => ?_, ih _⟩
      rcases List.mem_map.mp hmem with ⟨r, hr, hkey⟩
      exact dedupAux_not_seen rest _ r hr (by rw [hkey]; exact List.mem_cons_self _ _)

lemma dedupAux_covers (rows : List JobRow) : ∀ seen r, r ∈ rows → jobKey r ∉ seen →
    ∃ q ∈ dedupAux rows seen, jobKey q = jobKey r := by
  induction rows with
  | nil => intro seen r h; simp at h
  | cons x rest ih =>
    intro seen r hr hns
    rcases List.mem_cons.mp hr with rfl | hmem
    · by_cases hx : jobKey r ∈ seen
      · exact absurd hx hns
      · exact ⟨r, by simp [dedupAux, if_neg hx], rfl⟩
    · by_cases hx : jobKey x ∈ seen
      · rw [dedupAux, if_pos hx]
        exact ih seen r hmem hns
      · rw [dedupAux, if_neg hx]
        by_cases hkey : jobKey r = jobKey x
        · exact ⟨x, List.mem_cons_self _ _, hkey.symm⟩
        · have hns2 : jobKey r ∉ jobKey x :: seen := by
            intro hc
            rcases List.mem_cons.mp hc with h | h
            · exact hkey h
            · exact hns h
          rcases ih _ r hmem hns2 with ⟨q, hq, hk⟩
          exact ⟨q, List.mem_cons_of_mem _ hq, hk⟩

lemma dedupAux_first (rows : List JobRow) : ∀ seen q, q ∈ dedupAux rows seen →
    rows.find? (fun x => decide (jobKey x = jobKey q)) = some q := by
  induction rows with
  | nil => intro seen q h; simp [dedupAux] at h
  | cons x rest ih =>
    intro seen q hq
    simp only [dedupAux] at hq
    by_cases hx : jobKey x ∈ seen
    · rw [if_pos hx] at hq
      have hne : ¬(jobKey x = jobKey q) := by
        intro h
        exact dedupAux_not_seen rest seen q hq (h ▸ hx)
      rw [List.find?_cons_of_neg _ (by simpa using hne)]
      exact ih seen q hq
    · rw [if_neg hx] at hq
      rcases List.mem_cons.mp hq with rfl | hmem
      · exact List.find?_cons_of_pos _ (by simp)
      · have hqs : jobKey q ∉ jobKey x :: seen := dedupAux_not_seen rest _ q hmem
        have hne : ¬(jobKey x = jobKey q) := by
          intro h
          exact hqs (by rw [h]; exact List.mem_cons_self _ _)
        rw [List.find?_cons_of_neg _ (by simpa using hne)]
        exact ih _ q hmem

/-- Claim C2: over any accumulated row list, `drop_duplicates` on
(firm name, role title) — exact, case-sensitive comparison — keeps exactly one
record per distinct key; the survivor of each key is the first record carrying
it in processing order, and survivors appear in their original order. -/
theorem claim_C2 (rows : List JobRow) :
    (dedupRows rows).Sublist rows ∧
    ((dedupRows rows).map jobKey).Nodup ∧
    (∀ r ∈ rows, ∃ q ∈ dedupRows rows, jobKey q = jobKey r) ∧
    (∀ q ∈ dedupRows rows, rows.find? (fun x => decide (jobKey x = jobKey q)) = some q) := by
  refine ⟨dedupAux_sublist rows [], dedupAux_keys_nodup rows [], ?_, ?_⟩
  · intro r hr
    exact dedupAux_covers rows [] r hr (by simp)
  · intro q hq
    exact dedupAux_first rows [] q hq

/-- Rows used to witness claim C2: a duplicate (firm, role) key arriving from
two different sources with different contact data. -/
def rowsC2 : List JobRow :=
  [⟨"Acme Architects", "Designer", none, none⟩,
   ⟨"Bravo Studio", "Drafter", none, none⟩,
   ⟨"Acme Architects", "Designer", some "555-123-4567", none⟩]

theorem claim_C2_witness :
    (∃ q ∈ dedupRows rowsC2, jobKey q = jobKey ⟨"Acme Architects", "Designer", some "555-123-4567", none⟩) ∧
    rowsC2.find? (fun x => decide (jobKey x = jobKey ⟨"Acme Architects", "Designer", none, none⟩))
      = some ⟨"Acme Architects", "Designer", none, none⟩ :=
  ⟨(claim_C2 rowsC2).2.2.1 ⟨"Acme Architects", "Designer", some "555-123-4567", none⟩ (by decide),
   (claim_C2 rowsC2).2.2.2 ⟨"Acme Architects", "Designer", none, none⟩ (by decide)⟩

/-! ## Properties of the phone pattern -/

lemma takeDigits_spec : ∀ (n : Nat) (s ds r : List Char), takeDigits n s = some (ds, r) →
    ds.length = n ∧ (∀ c ∈ ds, c.isDigit = true) ∧ s = ds ++ r := by
  intro n
  induction n with
  | zero =>
    intro s ds r h
    simp only [takeDigits, Option.some.injEq, Prod.mk.injEq] at h
    obtain ⟨h1, h2⟩ := h
    subst h1; subst h2
    simp
  | succ n ih =>
    intro s ds r h
    cases s with
    | nil => simp [takeDigits] at h
    | cons c cs =>
      simp only [takeDigits] at h
      by_cases hc : c.isDigit
      · rw [if_pos hc] at h
        cases htd : takeDigits n cs with
        | none => rw [htd] at h; simp at h
        | some p =>
          obtain ⟨ds0, r0⟩ := p
          rw [htd] at h
          simp only [Option.map_some', Option.some.injEq, Prod.mk.injEq] at h
          obtain ⟨h1, h2⟩ := h
          subst h1; subst h2
          obtain ⟨hl, hd, hs⟩ := ih cs ds0 r0 htd
          refine ⟨by simp [hl], ?_, by simp [hs]⟩
          intro x hx
          rcases List.mem_cons.mp hx with rfl | hx
          · exact hc
          · exact hd x hx
      · rw [if_neg hc] at h
        simp at h

lemma ws_not_digit {c : Char} (h : c.isWhitespace = true) : c.isDigit = false := by
  simp only [Char.isWhitespace, Bool.or_eq_true, decide_eq_true_eq] at h
  rcases h with ((h | h) | h) | h <;> subst h <;> decide

lemma sep_not_digit {c : Char} (h : isSep c = true) : c.isDigit = false := by
  simp only [isSep, Bool.or_eq_true, beq_iff_eq] at h
  rcases h with (h | h) | h
  · subst h; decide
  · subst h; decide
  · exact ws_not_digit h

lemma filter_digits_all {l : List Char} (h : ∀ c ∈ l, c.isDigit = true) :
    l.filter (fun c => c.isDigit) = l :=
  List.filter_eq_self.mpr (by intro a ha; simpa using h a ha)

lemma digits_count_append (l1 l2 : List Char) :
    ((l1 ++ l2).filter (fun c => c.isDigit)).length =
    (l1.filter (fun c => c.isDigit)).length + (l2.filter (fun c => c.isDigit)).length := by
  simp [List.filter_append]

lemma digits_count_cons_false {c : Char} (h : c.isDigit = false) (l : List Char) :
    ((c :: l).filter (fun c => c.isDigit)).length = (l.filter (fun c => c.isDigit)).length := by
  simp [List.filter_cons, h]

lemma digits_count_all {l : List Char} (h : ∀ c ∈ l, c.isDigit = true) :
    (l.filter (fun c => c.isDigit)).length = l.length := by
  rw [filter_digits_all h]

lemma matchTail_digits : ∀ (s m r : List Char), matchTail s = some (m, r) →
    (m.filter (fun c => c.isDigit)).length = 7 := by
  intro s m r h
  unfold matchTail at h
  cases h2 : takeDigits 3 s with
  | none => rw [h2] at h; simp at h
  | some p2 =>
    obtain ⟨d2, r1⟩ := p2
    rw [h2] at h
    dsimp only at h
    obtain ⟨hl2, hd2, _⟩ := takeDigits_spec 3 s d2 r1 h2
    cases r1 with
    | nil => simp at h
    | cons c r2 =>
      dsimp only at h
      by_cases hsep : isSep c
      · rw [if_pos hsep] at h
        cases h3 : takeDigits 4 r2 with
        | none => rw [h3] at h; simp at h
        | some p3 =>
          obtain ⟨d3, r3⟩ := p3
          rw [h3] at h
          dsimp only at h
          obtain ⟨hl3, hd3, _⟩ := takeDigits_spec 4 r2 d3 r3 h3
          have hm : m = d2 ++ c :: d3 := by
            cases r3 with
            | nil =>
              dsimp only at h
              simp only [Option.some.injEq, Prod.mk.injEq] at h
              exact h.1.symm
            | cons c2 r4 =>
              dsimp only at h
              by_cases hw : isWordChar c2
              · rw [if_pos hw] at h; simp at h
              · rw [if_neg hw] at h
                simp only [Option.some.injEq, Prod.mk.injEq] at h
                exact h.1.symm
          subst hm
          rw [digits_count_append, digits_count_cons_false (sep_not_digit hsep),
            digits_count_all hd2, digits_count_all hd3, hl2, hl3]
      · rw [if_neg hsep] at h
        simp at h

lemma matchParen_digits : ∀ (s m : List Char), matchParen s = some m →
    (m.filter (fun c => c.isDigit)).length = 10 := by
  intro s m h
  unfold matchParen at h
  cases s with
  | nil => simp at h
  | cons c0 r0 =>
    dsimp only at h
    by_cases hc0 : c0 = '('
    · rw [if_pos hc0] at h
      cases h1 : takeDigits 3 r0 with
      | none => rw [h1] at h; simp at h
      | some p1 =>
        obtain ⟨d1, r1⟩ := p1
        rw [h1] at h
        dsimp only at h
        obtain ⟨hl1, hd1, _⟩ := takeDigits_spec 3 r0 d1 r1 h1
        cases r1 with
        | nil => simp at h
        | cons c1 r2 =>
          dsimp only at h
          by_cases hc1 : c1 = ')'
          · rw [if_pos hc1] at h
            have assembled : ∀ (x m2 r' : List Char), matchTail x = some (m2, r') →
                ((('(' :: (d1 ++ ')' :: m2)).filter (fun c => c.isDigit)).length = 10) := by
              intro x m2 r' h4
              rw [digits_count_cons_false (by decide), digits_count_append,
                digits_count_cons_false (by decide), digits_count_all hd1, hl1,
                matchTail_digits _ _ _ h4]
            cases r2 with
            | nil =>
              simp [matchTail, takeDigits] at h
            | cons c r3 =>
              dsimp only at h
              by_cases hw : c.isWhitespace
              · rw [if_pos hw] at h
                cases h5 : matchTail r3 with
                | some p =>
                  obtain ⟨m2, r'⟩ := p
                  rw [h5] at h
                  simp only [Option.some.injEq] at h
                  subst h
                  rw [digits_count_cons_false (by decide), digits_count_append,
                    digits_count_cons_false (by decide), digits_count_cons_false (ws_not_digit hw),
                    digits_count_all hd1, hl1, matchTail_digits _ _ _ h5]
                | none =>
                  rw [h5] at h
                  cases h6 : matchTail (c :: r3) with
                  | none => rw [h6] at h; simp at h
                  | some p =>
                    obtain ⟨m2, r'⟩ := p
                    rw [h6] at h
                    simp only [Option.map_some', Option.some.injEq] at h
                    subst h
                    exact assembled _ m2 r' h6
              · rw [if_neg hw] at h
                cases h6 : matchTail (c :: r3) with
                | none => rw [h6] at h; simp at h
                | some p =>
                  obtain ⟨m2, r'⟩ := p
                  rw [h6] at h
                  simp only [Option.map_some', Option.some.injEq] at h
                  subst h
                  exact assembled _ m2 r' h6
          · rw [if_neg hc1] at h; simp at h
    · rw [if_neg hc0] at h; simp at h

lemma matchBare_digits : ∀ (prev : Option Char) (s m : List Char), matchBare prev s = some m →
    (m.filter (fun c => c.isDigit)).length = 10 := by
  intro prev s m h
  unfold matchBare at h
  by_cases hb : boundaryOk prev
  · rw [if_pos hb] at h
    cases h1 : takeDigits 3 s with
    | none => rw [h1] at h; simp at h
    | some p1 =>
      obtain ⟨d1, r1⟩ := p1
      rw [h1] at h
      dsimp only at h
      obtain ⟨hl1, hd1, _⟩ := takeDigits_spec 3 s d1 r1 h1
      cases r1 with
      | nil => simp at h
      | cons c r2 =>
        dsimp only at h
        by_cases hsep : isSep c
        · rw [if_pos hsep] at h
          cases h2 : matchTail r2 with
          | none => rw [h2] at h; simp at h
          | some p =>
            obtain ⟨m2, r'⟩ := p
            rw [h2] at h
            simp only [Option.map_some', Option.some.injEq] at h
            subst h
            rw [digits_count_append, digits_count_cons_false (sep_not_digit hsep),
              digits_count_all hd1, hl1, matchTail_digits _ _ _ h2]
        · rw [if_neg hsep] at h; simp at h
  · rw [if_neg hb] at h; simp at h

lemma matchPhoneAt_digits : ∀ (prev : Option Char) (s m : List Char),
    matchPhoneAt prev s = some m → (m.filter (fun c => c.isDigit)).length = 10 := by
  intro prev s m h
  unfold matchPhoneAt at h
  cases hp : matchParen s with
  | some m0 =>
    rw [hp] at h
    simp only [Option.some.injEq] at h
    subst h
    exact matchParen_digits s m0 hp
  | none =>
    rw [hp] at h
    exact matchBare_digits prev s m h

lemma searchFrom_spec : ∀ (l : List Char) (prev : Option Char) (m : List Char),
    searchFrom prev l = some m →
    ∃ i, i < l.length ∧
      matchPhoneAt (if i = 0 then prev else l.get? (i - 1)) (l.drop i) = some m ∧
      ∀ j < i, matchPhoneAt (if j = 0 then prev else l.get? (j - 1)) (l.drop j) = none := by
  intro l
  induction l with
  | nil => intro prev m h; simp [searchFrom] at h
  | cons c rest ih =>
    intro prev m h
    unfold searchFrom at h
    cases hm : matchPhoneAt prev (c :: rest) with
    | some m0 =>
      rw [hm] at h
      simp only [Option.some.injEq] at h
      subst h
      refine ⟨0, by simp, by simpa using hm, ?_⟩
      intro j hj
      omega
    | none =>
      rw [hm] at h
      obtain ⟨i, hi, hmat, hnone⟩ := ih (some c) m h
      refine ⟨i + 1, by simpa using Nat.succ_lt_succ hi, ?_, ?_⟩
      · cases i with
        | zero => simpa using hmat
        | succ k => simpa using hmat
      · intro j hj
        cases j with
        | zero => simpa using hm
        | succ k =>
          have hk : k < i := by omega
          have hres := hnone k hk
          cases k with
          | zero => simpa using hres
          | succ k2 => simpa using hres

/-! ## Properties of the contact resolvers -/

lemma getContactInfoSimple_spec (fetch : Fetcher) (url : String) (ph w : Option String)
    (h : getContactInfoSimple fetch url = .ok (ph, w)) :
    (fetch url = .exn ∧ ph = none ∧ w = none) ∨
    (∃ doc, fetch url = .ok doc ∧ ph = phoneSearch (getTextStrip doc.dom " ") ∧
      w = (hrefLinks doc.dom).find? linkOkSimple) := by
  unfold getContactInfoSimple at h
  cases hf : fetch url with
  | exn =>
    rw [hf] at h
    simp only [PyRes.ok.injEq, Prod.mk.injEq] at h
    exact Or.inl ⟨rfl, h.1.symm, h.2.symm⟩
  | interrupt => rw [hf] at h; simp at h
  | ok doc =>
    rw [hf] at h
    dsimp only at h
    simp only [PyRes.ok.injEq, Prod.mk.injEq] at h
    exact Or.inr ⟨doc, rfl, h.1.symm, h.2.symm⟩

lemma getContactInfoV1_spec (fetch : Fetcher) (url : String) (ph w : Option String)
    (h : getContactInfoV1 fetch url = .ok (ph, w)) :
    (fetch url = .exn ∧ ph = none ∧ w = none) ∨
    (∃ doc, fetch url = .ok doc ∧
      w = (hrefLinks doc.dom).find? linkOkV1 ∧
      ((ph = phoneSearch (getTextStrip doc.dom " ") ∧
          (phoneSearch (getTextStrip doc.dom " ") ≠ none ∨ w = none)) ∨
       (phoneSearch (getTextStrip doc.dom " ") = none ∧ ∃ w0, w = some w0 ∧
         ((∃ doc2, fetch w0 = .ok doc2 ∧ ph = phoneSearch doc2.raw) ∨
          (fetch w0 = .exn ∧ ph = none))))) := by
  unfold getContactInfoV1 at h
  cases hf : fetch url with
  | exn =>
    rw [hf] at h
    simp only [PyRes.ok.injEq, Prod.mk.injEq] at h
    exact Or.inl ⟨rfl, h.1.symm, h.2.symm⟩
  | interrupt => rw [hf] at h; simp at h
  | ok doc =>
    rw [hf] at h
    dsimp only at h
    cases hw : (hrefLinks doc.dom).find? linkOkV1 with
    | none =>
      rw [hw] at h
      dsimp only at h
      simp only [PyRes.ok.injEq, Prod.mk.injEq] at h
      exact Or.inr ⟨doc, rfl, by rw [← h.2, hw], Or.inl ⟨h.1.symm, Or.inr h.2.symm⟩⟩
    | some w0 =>
      rw [hw] at h
      dsimp only at h
      cases hp : phoneSearch (getTextStrip doc.dom " ") with
      | some p0 =>
        rw [hp] at h
        dsimp only at h
        simp only [PyRes.ok.injEq, Prod.mk.injEq] at h
        exact Or.inr ⟨doc, rfl, by rw [← h.2, hw], Or.inl ⟨by rw [← h.1, hp], by simp [hp]⟩⟩
      | none =>
        rw [hp] at h
        dsimp only at h
        cases hf2 : fetch w0 with
        | ok doc2 =>
          rw [hf2] at h
          dsimp only at h
          cases hp2 : phoneSearch doc2.raw with
          | some p2 =>
            rw [hp2] at h
            simp only [PyRes.ok.injEq, Prod.mk.injEq] at h
            exact Or.inr ⟨doc, rfl, by rw [← h.2, hw],
              Or.inr ⟨hp, w0, h.2.symm, Or.inl ⟨doc2, hf2, by rw [← h.1, hp2]⟩⟩⟩
          | none =>
            rw [hp2] at h
            simp only [PyRes.ok.injEq, Prod.mk.injEq] at h
            exact Or.inr ⟨doc, rfl, by rw [← h.2, hw],
              Or.inr ⟨hp, w0, h.2.symm, Or.inl ⟨doc2, hf2, by rw [← h.1, hp2]⟩⟩⟩
        | exn =>
          rw [hf2] at h
          simp only [PyRes.ok.injEq, Prod.mk.injEq] at h
          exact Or.inr ⟨doc, rfl, by rw [← h.2, hw],
            Or.inr ⟨hp, w0, h.2.symm, Or.inr ⟨hf2, h.1.symm⟩⟩⟩
        | interrupt => rw [hf2] at h; simp at h

/-- Claim C4: neither contact resolver ever lets an exception escape; a failed
detail fetch yields both fields absent, and a page with neither a phone-pattern
match nor a qualifying link also yields both fields absent. -/
theorem claim_C4 (fetch : Fetcher) (url : String) :
    (getContactInfoV1 fetch url ≠ .exn) ∧
    (fetch url = .exn → getContactInfoV1 fetch url = .ok (none, none)) ∧
    (∀ doc, fetch url = .ok doc → phoneSearch (getTextStrip doc.dom " ") = none →
      (hrefLinks doc.dom).find? linkOkV1 = none →
      getContactInfoV1 fetch url = .ok (none, none)) ∧
    (getContactInfoSimple fetch url ≠ .exn) ∧
    (fetch url = .exn → getContactInfoSimple fetch url = .ok (none, none)) ∧
    (∀ doc, fetch url = .ok doc → phoneSearch (getTextStrip doc.dom " ") = none →
      (hrefLinks doc.dom).find? linkOkSimple = none →
      getContactInfoSimple fetch url = .ok (none, none)) := by
  refine ⟨?_, ?_, ?_, ?_, ?_, ?_⟩
  · unfold getContactInfoV1
    cases fetch url with
    | exn => simp
    | interrupt => simp
    | ok doc =>
      dsimp only
      cases (hrefLinks doc.dom).find? linkOkV1 with
      | none => simp
      | some w0 =>
        cases phoneSearch (getTextStrip doc.dom " ") with
        | some p => simp
        | none =>
          dsimp only
          cases fetch w0 with
          | ok doc2 => dsimp only; cases phoneSearch doc2.raw <;> simp
          | exn => simp
          | interrupt => simp
  · intro hf
    unfold getContactInfoV1
    rw [hf]
  · intro doc hf hp hw
    unfold getContactInfoV1
    rw [hf]
    dsimp only
    rw [hp, hw]
  · unfold getContactInfoSimple
    cases fetch url with
    | exn => simp
    | interrupt => simp
    | ok doc => simp
  · intro hf
    unfold getContactInfoSimple
    rw [hf]
  · intro doc hf hp hw
    unfold getContactInfoSimple
    rw [hf]
    dsimp only
    rw [hp, hw]

/-- A detail page with no phone in its text and no link at all, to witness C4. -/
def docC4 : Doc := ⟨"", .elem "html" [] [] [.text "thanks for visiting"]⟩

theorem claim_C4_witness :
    getContactInfoV1 (fun _ => FetchOutcome.exn) "https://a.example" = .ok (none, none) ∧
    getContactInfoSimple (fun _ => FetchOutcome.ok docC4) "https://a.example" = .ok (none, none) :=
  ⟨(claim_C4 (fun _ => FetchOutcome.exn) "https://a.example").2.1 rfl,
   (claim_C4 (fun _ => FetchOutcome.ok docC4) "https://a.example").2.2.2.2.2 docC4 rfl
     (by decide) (by decide)⟩

/-- Claim C3 (amended): in `scrapperv1.py`, when the detail page has no
phone-pattern match but yields a qualifying external link, the resolver
fetches that website and searches its raw content — a successful secondary
fetch contributes its first phone match (if any) alongside the website, and a
failed secondary fetch silently leaves the phone absent.  In
`scrapper_simple.py` the resolver performs no secondary fetch at all: the
phone stays absent in that situation even when the website's content contains
a phone match. -/
theorem claim_C3 (fetch : Fetcher) (url w : String) (doc : Doc)
    (hf : fetch url = .ok doc)
    (hp : phoneSearch (getTextStrip doc.dom " ") = none)
    (hw : (hrefLinks doc.dom).find? linkOkV1 = some w) :
    (∀ doc2, fetch w = .ok doc2 →
      getContactInfoV1 fetch url = .ok (phoneSearch doc2.raw, some w)) ∧
    (fetch w = .exn → getContactInfoV1 fetch url = .ok (none, some w)) ∧
    getContactInfoSimple fetch url = .ok (none, (hrefLinks doc.dom).find? linkOkSimple) := by
  refine ⟨?_, ?_, ?_⟩
  · intro doc2 hf2
    unfold getContactInfoV1
    rw [hf]
    dsimp only
    rw [hp, hw]
    dsimp only
    rw [hf2]
    dsimp only
    cases phoneSearch doc2.raw <;> rfl
  · intro hf2
    unfold getContactInfoV1
    rw [hf]
    dsimp only
    rw [hp, hw]
    dsimp only
    rw [hf2]
  · unfold getContactInfoSimple
    rw [hf]
    dsimp only
    rw [hp]

/-- The detail page of the C3 counterexample: no phone in the visible text,
one qualifying external link. -/
def detailDocC3 : Doc := ⟨"", .elem "html" [] [] [
  .text "Reach us online",
  .elem "a" [] [("href", "http://firm.example")] [.text "our site"]]⟩

/-- The linked firm website of the C3 counterexample: its raw content contains
a phone-pattern match. -/
def siteDocC3 : Doc := ⟨"<body>Phone: 555-123-4567</body>", .elem "body" [] [] []⟩

/-- The network environment of the C3 counterexample. -/
def fetchC3 : Fetcher := fun u =>
  if u = "http://job.example" then .ok detailDocC3
  else if u = "http://firm.example" then .ok siteDocC3
  else .exn

theorem claim_C3_cex :
    phoneSearch (getTextStrip detailDocC3.dom " ") = none ∧
    (hrefLinks detailDocC3.dom).find? linkOkSimple = some "http://firm.example" ∧
    fetchC3 "http://firm.example" = .ok siteDocC3 ∧
    phoneSearch siteDocC3.raw = some "555-123-4567" ∧
    getContactInfoSimple fetchC3 "http://job.example" = .ok (none, some "http://firm.example") :=
  ⟨by decide, by decide, rfl, by decide, by decide⟩

theorem claim_C3_witness :
    getContactInfoV1 fetchC3 "http://job.example" = .ok (some "555-123-4567", some "http://firm.example") :=
  (claim_C3 fetchC3 "http://job.example" "http://firm.example" detailDocC3
    rfl (by decide) (by decide)).1 siteDocC3 rfl

/-- Claim C5 (amended): `get_small_towns` queries a single population period
(the 2023 endpoint); an error status there makes the call raise — there is no
fallback period and no distinct `DataSourceUnavailable` outcome — and on
success the returned sequence contains exactly the places whose population
parses as an integer at most 50 000 and whose region name maps through
`STATE_LOOKUP`, with unparseable populations and unmappable regions skipped. -/
theorem claim_C5 (census : String → CensusOutcome) :
    (census "2023" = .httpError → getSmallTowns census = .exn) ∧
    (∀ payload, census "2023" = .ok payload →
      getSmallTowns census = .ok ((payload.drop 1).filterMap extractPlace)) ∧
    (∀ name pop x y city abbr,
      extractPlace (name, pop, x, y) = some (city, abbr) ↔
        ∃ p, pyInt pop = some p ∧ p ≤ 50000 ∧
          stateLookup (pyStrip (partitionComma name).2) = some abbr ∧
          city = pyStrip (partitionComma name).1) := by
  refine ⟨?_, ?_, ?_⟩
  · intro h; unfold getSmallTowns; rw [h]
  · intro payload h; unfold getSmallTowns; rw [h]
  · intro name pop x y city abbr
    constructor
    · intro h
      unfold extractPlace at h
      dsimp only at h
      cases hp : pyInt pop with
      | none => rw [hp] at h; simp at h
      | some p =>
        rw [hp] at h
        dsimp only at h
        by_cases hle : p ≤ 50000
        · rw [if_pos hle] at h
          cases hs : stateLookup (pyStrip (partitionComma name).2) with
          | none => rw [hs] at h; simp at h
          | some ab =>
            rw [hs] at h
            simp only [Option.some.injEq, Prod.mk.injEq] at h
            exact ⟨p, rfl, hle, by rw [h.2], h.1.symm⟩
        · rw [if_neg hle] at h; simp at h
    · rintro ⟨p, hp, hle, hs, hcity⟩
      unfold extractPlace
      dsimp only
      rw [hp]
      dsimp only
      rw [if_pos hle, hs, hcity]

/-- The census environment of the C5 counterexample: the 2023 period fails
with an error status while the 2022 period would have succeeded with a place
that passes every filter. -/
def censusC5 : String → CensusOutcome := fun period =>
  if period = "2022" then
    .ok [("NAME", "POP", "state", "place"), ("Tinytown, Iowa", "500", "19", "001")]
  else .httpError

theorem claim_C5_cex :
    censusC5 "2022" = .ok [("NAME", "POP", "state", "place"), ("Tinytown, Iowa", "500", "19", "001")] ∧
    extractPlace ("Tinytown, Iowa", "500", "19", "001") = some ("Tinytown", "IA") ∧
    getSmallTowns censusC5 = .exn :=
  ⟨rfl, by decide, rfl⟩

/-- The census payload used to witness claim C5: a header row, a small
mappable place, a too-large place, an unmappable region, an unparseable
population. -/
def payloadC5 : List (String × String × String × String) :=
  [("NAME", "POP", "state", "place"),
   ("Tinytown, Iowa", "500", "19", "001"),
   ("Mega City, Texas", "2000000", "48", "002"),
   ("Nowhere, Atlantis", "10", "00", "003"),
   ("Badpop, Ohio", "12x", "39", "004")]

theorem claim_C5_witness :
    getSmallTowns (fun _ => CensusOutcome.ok payloadC5)
      = .ok ((payloadC5.drop 1).filterMap extractPlace) ∧
    (payloadC5.drop 1).filterMap extractPlace = [("Tinytown", "IA")] :=
  ⟨(claim_C5 (fun _ => CensusOutcome.ok payloadC5)).2.1 payloadC5 rfl, by decide⟩

/-- Claim C10: both pipelines are deterministic — two runs in which every URL
(and the census endpoint) yields the same outcome produce identical results,
record for record. -/
theorem claim_C10 (census1 census2 : String → CensusOutcome) (fetch1 fetch2 : Fetcher)
    (hc : ∀ p, census1 p = census2 p) (hf : ∀ u, fetch1 u = fetch2 u) :
    mainSimple fetch1 = mainSimple fetch2 ∧
    scriptV1 census1 fetch1 = scriptV1 census2 fetch2 := by
  have hc2 : census1 = census2 := funext hc
  have hf2 : fetch1 = fetch2 := funext hf
  subst hc2; subst hf2
  exact ⟨rfl, rfl⟩

theorem claim_C10_witness :
    mainSimple (fun _ => FetchOutcome.exn) = mainSimple (fun _ => FetchOutcome.exn) ∧
    scriptV1 (fun _ => CensusOutcome.httpError) (fun _ => FetchOutcome.exn)
      = scriptV1 (fun _ => CensusOutcome.httpError) (fun _ => FetchOutcome.exn) :=
  claim_C10 _ _ _ _ (fun _ => rfl) (fun _ => rfl)

/-! ## Provenance of scraped rows -/

/-- How one Archinect card of `scrapper_simple.py` gives rise to a row: both
the firm and role elements are present, the names are their stripped texts,
the detail link is the origin plus the card's first anchor's `href`, and the
contact fields are the resolver's output for that link. -/
def CardRowArchSimple (fetch : Fetcher) (card : Node) (r : JobRow) : Prop :=
  ∃ (t1 t2 a : Node) (href : String),
    selectOne "job-listing-title" card = some t1 ∧
    selectOne "job-position" card = some t2 ∧
    firstA card = some a ∧
    getAttr a "href" = some href ∧
    r.firm_name = getTextStrip t1 "" ∧
    r.role_title = getTextStrip t2 "" ∧
    getContactInfoSimple fetch ("https://archinect.com" ++ href) = .ok (r.phone, r.website)

/-- How one AIA card of `scrapper_simple.py` gives rise to a row. -/
def CardRowAiaSimple (fetch : Fetcher) (card : Node) (r : JobRow) : Prop :=
  ∃ (t1 t2 a : Node) (href : String),
    selectOne "job-listing__info--name" card = some t1 ∧
    selectOne "job-listing__info--title" card = some t2 ∧
    firstA card = some a ∧
    getAttr a "href" = some href ∧
    r.firm_name = getTextStrip t1 "" ∧
    r.role_title = getTextStrip t2 "" ∧
    getContactInfoSimple fetch href = .ok (r.phone, r.website)

/-- How one Archinect card of `scrapperv1.py` gives rise to a row. -/
def CardRowArchV1 (fetch : Fetcher) (card : Node) (r : JobRow) : Prop :=
  ∃ (t1 t2 a : Node) (href : String),
    selectOne "job-listing-title" card = some t1 ∧
    selectOne "job-position" card = some t2 ∧
    firstA card = some a ∧
    getAttr a "href" = some href ∧
    r.firm_name = getTextStrip t1 "" ∧
    r.role_title = getTextStrip t2 "" ∧
    getContactInfoV1 fetch ("https://archinect.com" ++ href) = .ok (r.phone, r.website)

/-- How one AIA card of `scrapperv1.py` gives rise to a row. -/
def CardRowAiaV1 (fetch : Fetcher) (card : Node) (r : JobRow) : Prop :=
  ∃ (t1 t2 a : Node) (href : String),
    selectOne "job-listing__info--name" card = some t1 ∧
    selectOne "job-listing__info--title" card = some t2 ∧
    firstA card = some a ∧
    getAttr a "href" = some href ∧
    r.firm_name = getTextStrip t1 "" ∧
    r.role_title = getTextStrip t2 "" ∧
    getContactInfoV1 fetch href = .ok (r.phone, r.website)

/-- A row of `scrapper_simple.py` came from some fetched page, through one of
the two listing sources' card structures. -/
def RowProvSimple (fetch : Fetcher) (r : JobRow) : Prop :=
  ∃ (url : String) (doc : Doc), fetch url = .ok doc ∧
    ((∃ card ∈ selectClass "job-listing" doc.dom, CardRowArchSimple fetch card r) ∨
     (∃ card ∈ selectTagClass "article" "job-listing" doc.dom, CardRowAiaSimple fetch card r))

/-- A row of `scrapperv1.py` came from some fetched page, through one of the
two listing sources' card structures. -/
def RowProvV1 (fetch : Fetcher) (r : JobRow) : Prop :=
  ∃ (url : String) (doc : Doc), fetch url = .ok doc ∧
    ((∃ card ∈ selectClass "job-listing" doc.dom, CardRowArchV1 fetch card r) ∨
     (∃ card ∈ selectTagClass "article" "job-listing" doc.dom, CardRowAiaV1 fetch card r))

lemma scrapeCardsArchSimple_prov (fetch : Fetcher) :
    ∀ (cards : List Node) (acc : List JobRow),
      ∀ r ∈ (scrapeCardsArchSimple fetch cards acc).1,
        r ∈ acc ∨ ∃ card ∈ cards, CardRowArchSimple fetch card r := by
  intro cards
  induction cards with
  | nil => intro acc r hr; exact Or.inl (by simpa [scrapeCardsArchSimple] using hr)
  | cons card rest ih =>
    intro acc r hr
    unfold scrapeCardsArchSimple at hr
    cases h1 : selectOne "job-listing-title" card with
    | none =>
      rw [h1] at hr
      dsimp only at hr
      rcases ih acc r hr with h | ⟨c, hc, hcard⟩
      · exact Or.inl h
      · exact Or.inr ⟨c, List.mem_cons_of_mem _ hc, hcard⟩
    | some t1 =>
      rw [h1] at hr
      cases h2 : selectOne "job-position" card with
      | none =>
        rw [h2] at hr
        dsimp only at hr
        rcases ih acc r hr with h | ⟨c, hc, hcard⟩
        · exact Or.inl h
        · exact Or.inr ⟨c, List.mem_cons_of_mem _ hc, hcard⟩
      | some t2 =>
        rw [h2] at hr
        dsimp only at hr
        cases h3 : firstA card with
        | none =>
          rw [h3] at hr
          dsimp only at hr
          exact Or.inl hr
        | some a =>
          rw [h3] at hr
          dsimp only at hr
          cases h4 : getAttr a "href" with
          | none =>
            rw [h4] at hr
            dsimp only at hr
            exact Or.inl hr
          | some href =>
            rw [h4] at hr
            dsimp only at hr
            cases h5 : getContactInfoSimple fetch ("https://archinect.com" ++ href) with
            | interrupt =>
              rw [h5] at hr
              dsimp only at hr
              exact Or.inl hr
            | exn =>
              rw [h5] at hr
              dsimp only at hr
              exact Or.inl hr
            | ok pr =>
              obtain ⟨ph, site⟩ := pr
              rw [h5] at hr
              dsimp only at hr
              rcases ih _ r hr with h | ⟨c, hc, hcard⟩
              · rcases List.mem_append.mp h with h | h
                · exact Or.inl h
                · have hrr : r = ⟨getTextStrip t1 "", getTextStrip t2 "", ph, site⟩ := by
                    simpa using h
                  subst hrr
                  exact Or.inr ⟨card, List.mem_cons_self _ _,
                    t1, t2, a, href, h1, h2, h3, h4, rfl, rfl, h5⟩
              · exact Or.inr ⟨c, List.mem_cons_of_mem _ hc, hcard⟩

lemma scrapeCardsAiaSimple_prov (fetch : Fetcher) :
    ∀ (cards : List Node) (acc : List JobRow),
      ∀ r ∈ (scrapeCardsAiaSimple fetch cards acc).1,
        r ∈ acc ∨ ∃ card ∈ cards, CardRowAiaSimple fetch card r := by
  intro cards
  induction cards with
  | nil => intro acc r hr; exact Or.inl (by simpa [scrapeCardsAiaSimple] using hr)
  | cons card rest ih =>
    intro acc r hr
    unfold scrapeCardsAiaSimple at hr
    cases h1 : selectOne "job-listing__info--name" card with
    | none =>
      rw [h1] at hr
      dsimp only at hr
      rcases ih acc r hr with h | ⟨c, hc, hcard⟩
      · exact Or.inl h
      · exact Or.inr ⟨c, List.mem_cons_of_mem _ hc, hcard⟩
    | some t1 =>
      rw [h1] at hr
      cases h2 : selectOne "job-listing__info--title" card with
      | none =>
        rw [h2] at hr
        dsimp only at hr
        rcases ih acc r hr with h | ⟨c, hc, hcard⟩
        · exact Or.inl h
        · exact Or.inr ⟨c, List.mem_cons_of_mem _ hc, hcard⟩
      | some t2 =>
        rw [h2] at hr
        dsimp only at hr
        cases h3 : firstA card with
        | none =>
          rw [h3] at hr
          dsimp only at hr
          exact Or.inl hr
        | some a =>
          rw [h3] at hr
          dsimp only at hr
          cases h4 : getAttr a "href" with
          | none =>
            rw [h4] at hr
            dsimp only at hr
            exact Or.inl hr
          | some href =>
            rw [h4] at hr
            dsimp only at hr
            cases h5 : getContactInfoSimple fetch href with
            | interrupt =>
              rw [h5] at hr
              dsimp only at hr
              exact Or.inl hr
            | exn =>
              rw [h5] at hr
              dsimp only at hr
              exact Or.inl hr
            | ok pr =>
              obtain ⟨ph, site⟩ := pr
              rw [h5] at hr
              dsimp only at hr
              rcases ih _ r hr with h | ⟨c, hc, hcard⟩
              · rcases List.mem_append.mp h with h | h
                · exact Or.inl h
                · have hrr : r = ⟨getTextStrip t1 "", getTextStrip t2 "", ph, site⟩ := by
                    simpa using h
                  subst hrr
                  exact Or.inr ⟨card, List.mem_cons_self _ _,
                    t1, t2, a, href, h1, h2, h3, h4, rfl, rfl, h5⟩
              · exact Or.inr ⟨c, List.mem_cons_of_mem _ hc, hcard⟩

lemma scrapeCardsArchV1_prov (fetch : Fetcher) :
    ∀ (cards : List Node) (acc : List JobRow),
      ∀ r ∈ (scrapeCardsArchV1 fetch cards acc).1,
        r ∈ acc ∨ ∃ card ∈ cards, CardRowArchV1 fetch card r := by
  intro cards
  induction cards with
  | nil => intro acc r hr; exact Or.inl (by simpa [scrapeCardsArchV1] using hr)
  | cons card rest ih =>
    intro acc r hr
    unfold scrapeCardsArchV1 at hr
    cases h1 : selectOne "job-listing-title" card with
    | none =>
      rw [h1] at hr
      dsimp only at hr
      rcases ih acc r hr with h | ⟨c, hc, hcard⟩
      · exact Or.inl h
      · exact Or.inr ⟨c, List.mem_cons_of_mem _ hc, hcard⟩
    | some t1 =>
      rw [h1] at hr
      cases h2 : selectOne "job-position" card with
      | none =>
        rw [h2] at hr
        dsimp only at hr
        rcases ih acc r hr with h | ⟨c, hc, hcard⟩
        · exact Or.inl h
        · exact Or.inr ⟨c, List.mem_cons_of_mem _ hc, hcard⟩
      | some t2 =>
        rw [h2] at hr
        dsimp only at hr
        cases h3 : firstA card with
        | none =>
          rw [h3] at hr
          dsimp only at hr
          exact Or.inl hr
        | some a =>
          rw [h3] at hr
          dsimp only at hr
          cases h4 : getAttr a "href" with
          | none =>
            rw [h4] at hr
            dsimp only at hr
            exact Or.inl hr
          | some href =>
            rw [h4] at hr
            dsimp only at hr
            cases h5 : getContactInfoV1 fetch ("https://archinect.com" ++ href) with
            | interrupt =>
              rw [h5] at hr
              dsimp only at hr
              exact Or.inl hr
            | exn =>
              rw [h5] at hr
              dsimp only at hr
              exact Or.inl hr
            | ok pr =>
              obtain ⟨ph, site⟩ := pr
              rw [h5] at hr
              dsimp only at hr
              rcases ih _ r hr with h | ⟨c, hc, hcard⟩
              · rcases List.mem_append.mp h with h | h
                · exact Or.inl h
                · have hrr : r = ⟨getTextStrip t1 "", getTextStrip t2 "", ph, site⟩ := by
                    simpa using h
                  subst hrr
                  exact Or.inr ⟨card, List.mem_cons_self _ _,
                    t1, t2, a, href, h1, h2, h3, h4, rfl, rfl, h5⟩
              · exact Or.inr ⟨c, List.mem_cons_of_mem _ hc, hcard⟩

lemma scrapeCardsAiaV1_prov (fetch : Fetcher) :
    ∀ (cards : List Node) (acc : List JobRow),
      ∀ r ∈ (scrapeCardsAiaV1 fetch cards acc).1,
        r ∈ acc ∨ ∃ card ∈ cards, CardRowAiaV1 fetch card r := by
  intro cards
  induction cards with
  | nil => intro acc r hr; exact Or.inl (by simpa [scrapeCardsAiaV1] using hr)
  | cons card rest ih =>
    intro acc r hr
    unfold scrapeCardsAiaV1 at hr
    cases h1 : selectOne "job-listing__info--name" card with
    | none =>
      rw [h1] at hr
      dsimp only at hr
      rcases ih acc r hr with h | ⟨c, hc, hcard⟩
      · exact Or.inl h
      · exact Or.inr ⟨c, List.mem_cons_of_mem _ hc, hcard⟩
    | some t1 =>
      rw [h1] at hr
      cases h2 : selectOne "job-listing__info--title" card with
      | none =>
        rw [h2] at hr
        dsimp only at hr
        rcases ih acc r hr with h | ⟨c, hc, hcard⟩
        · exact Or.inl h
        · exact Or.inr ⟨c, List.mem_cons_of_mem _ hc, hcard⟩
      | some t2 =>
        rw [h2] at hr
        dsimp only at hr
        cases h3 : firstA card with
        | none =>
          rw [h3] at hr
          dsimp only at hr
          exact Or.inl hr
        | some a =>
          rw [h3] at hr
          dsimp only at hr
          cases h4 : getAttr a "href" with
          | none =>
            rw [h4] at hr
            dsimp only at hr
            exact Or.inl hr
          | some href =>
            rw [h4] at hr
            dsimp only at hr
            cases h5 : getContactInfoV1 fetch href with
            | interrupt =>
              rw [h5] at hr
              dsimp only at hr
              exact Or.inl hr
            | exn =>
              rw [h5] at hr
              dsimp only at hr
              exact Or.inl hr
            | ok pr =>
              obtain ⟨ph, site⟩ := pr
              rw [h5] at hr
              dsimp only at hr
              rcases ih _ r hr with h | ⟨c, hc, hcard⟩
              · rcases List.mem_append.mp h with h | h
                · exact Or.inl h
                · have hrr : r = ⟨getTextStrip t1 "", getTextStrip t2 "", ph, site⟩ := by
                    simpa using h
                  subst hrr
                  exact Or.inr ⟨card, List.mem_cons_self _ _,
                    t1, t2, a, href, h1, h2, h3, h4, rfl, rfl, h5⟩
              · exact Or.inr ⟨c, List.mem_cons_of_mem _ hc, hcard⟩

lemma scrapeArchinectSimple_prov (fetch : Fetcher) (city state : String) :
    ∀ r ∈ (scrapeArchinectSimple fetch city state).1, RowProvSimple fetch r := by
  intro r hr
  unfold scrapeArchinectSimple at hr
  cases hf : fetch (archUrl state city) with
  | exn => rw [hf] at hr; simp at hr
  | interrupt => rw [hf] at hr; simp at hr
  | ok doc =>
    rw [hf] at hr
    dsimp only at hr
    rcases scrapeCardsArchSimple_prov fetch _ [] r hr with h | ⟨card, hc, hcard⟩
    · simp at h
    · exact ⟨archUrl state city, doc, hf, Or.inl ⟨card, hc, hcard⟩⟩

lemma scrapeAiaSimple_prov (fetch : Fetcher) (city state : String) :
    ∀ r ∈ (scrapeAiaSimple fetch city state).1, RowProvSimple fetch r := by
  intro r hr
  unfold scrapeAiaSimple at hr
  cases hf : fetch (aiaUrlSimple city state) with
  | exn => rw [hf] at hr; simp at hr
  | interrupt => rw [hf] at hr; simp at hr
  | ok doc =>
    rw [hf] at hr
    dsimp only at hr
    rcases scrapeCardsAiaSimple_prov fetch _ [] r hr with h | ⟨card, hc, hcard⟩
    · simp at h
    · exact ⟨aiaUrlSimple city state, doc, hf, Or.inr ⟨card, hc, hcard⟩⟩

lemma scrapeArchinectV1_prov (fetch : Fetcher) (city state : String) :
    ∀ r ∈ (scrapeArchinectV1 fetch city state).1, RowProvV1 fetch r := by
  intro r hr
  unfold scrapeArchinectV1 at hr
  cases hf : fetch (archUrl state city) with
  | exn => rw [hf] at hr; simp at hr
  | interrupt => rw [hf] at hr; simp at hr
  | ok doc =>
    rw [hf] at hr
    dsimp only at hr
    rcases scrapeCardsArchV1_prov fetch _ [] r hr with h | ⟨card, hc, hcard⟩
    · simp at h
    · exact ⟨archUrl state city, doc, hf, Or.inl ⟨card, hc, hcard⟩⟩

lemma scrapeAiaV1_prov (fetch : Fetcher) (city state : String) :
    ∀ r ∈ (scrapeAiaV1 fetch city state).1, RowProvV1 fetch r := by
  intro r hr
  unfold scrapeAiaV1 at hr
  cases hf : fetch (aiaUrlV1 city state) with
  | exn => rw [hf] at hr; simp at hr
  | interrupt => rw [hf] at hr; simp at hr
  | ok doc =>
    rw [hf] at hr
    dsimp only at hr
    rcases scrapeCardsAiaV1_prov fetch _ [] r hr with h | ⟨card, hc, hcard⟩
    · simp at h
    · exact ⟨aiaUrlV1 city state, doc, hf, Or.inr ⟨card, hc, hcard⟩⟩

lemma runLocationsSimple_prov (fetch : Fetcher) :
    ∀ (locs : List (String × String)) (acc : List JobRow),
      ∀ r ∈ (runLocationsSimple fetch locs acc).1, r ∈ acc ∨ RowProvSimple fetch r := by
  intro locs
  induction locs with
  | nil => intro acc r hr; exact Or.inl (by simpa [runLocationsSimple] using hr)
  | cons loc rest ih =>
    obtain ⟨city, state⟩ := loc
    intro acc r hr
    unfold runLocationsSimple at hr
    cases h1 : scrapeArchinectSimple fetch city state with
    | mk r1 f1 =>
      rw [h1] at hr
      cases f1 with
      | some f =>
        dsimp only at hr
        rcases List.mem_append.mp hr with h | h
        · exact Or.inl h
        · exact Or.inr (scrapeArchinectSimple_prov fetch city state r (by rw [h1]; exact h))
      | none =>
        dsimp only at hr
        cases h2 : scrapeAiaSimple fetch city state with
        | mk r2 f2 =>
          rw [h2] at hr
          cases f2 with
          | some f =>
            dsimp only at hr
            rcases List.mem_append.mp hr with h | h
            · rcases List.mem_append.mp h with h | h
              · exact Or.inl h
              · exact Or.inr (scrapeArchinectSimple_prov fetch city state r (by rw [h1]; exact h))
            · exact Or.inr (scrapeAiaSimple_prov fetch city state r (by rw [h2]; exact h))
          | none =>
            dsimp only at hr
            rcases ih _ r hr with h | h
            · rcases List.mem_append.mp h with h | h
              · rcases List.mem_append.mp h with h | h
                · exact Or.inl h
                · exact Or.inr (scrapeArchinectSimple_prov fetch city state r (by rw [h1]; exact h))
              · exact Or.inr (scrapeAiaSimple_prov fetch city state r (by rw [h2]; exact h))
            · exact Or.inr h

lemma runLocationsV1_prov (fetch : Fetcher) :
    ∀ (locs : List (String × String)) (acc : List JobRow),
      ∀ r ∈ (runLocationsV1 fetch locs acc).1, r ∈ acc ∨ RowProvV1 fetch r := by
  intro locs
  induction locs with
  | nil => intro acc r hr; exact Or.inl (by simpa [runLocationsV1] using hr)
  | cons loc rest ih =>
    obtain ⟨city, state⟩ := loc
    intro acc r hr
    unfold runLocationsV1 at hr
    cases h1 : scrapeArchinectV1 fetch city state with
    | mk r1 f1 =>
      rw [h1] at hr
      cases f1 with
      | some f =>
        dsimp only at hr
        rcases List.mem_append.mp hr with h | h
        · exact Or.inl h
        · exact Or.inr (scrapeArchinectV1_prov fetch city state r (by rw [h1]; exact h))
      | none =>
        dsimp only at hr
        cases h2 : scrapeAiaV1 fetch city state with
        | mk r2 f2 =>
          rw [h2] at hr
          cases f2 with
          | some f =>
            dsimp only at hr
            rcases List.mem_append.mp hr with h | h
            · rcases List.mem_append.mp h with h | h
              · exact Or.inl h
              · exact Or.inr (scrapeArchinectV1_prov fetch city state r (by rw [h1]; exact h))
            · exact Or.inr (scrapeAiaV1_prov fetch city state r (by rw [h2]; exact h))
          | none =>
            dsimp only at hr
            rcases ih _ r hr with h | h
            · rcases List.mem_append.mp h with h | h
              · rcases List.mem_append.mp h with h | h
                · exact Or.inl h
                · exact Or.inr (scrapeArchinectV1_prov fetch city state r (by rw [h1]; exact h))
              · exact Or.inr (scrapeAiaV1_prov fetch city state r (by rw [h2]; exact h))
            · exact Or.inr h

lemma mainSimple_prov (fetch : Fetcher) (out : List JobRow)
    (h : mainSimple fetch = .exported out) :
    ∀ r ∈ out, RowProvSimple fetch r := by
  intro r hr
  unfold mainSimple at h
  cases hrun : runLocationsSimple fetch LOCATIONS [] with
  | mk rows f =>
    rw [hrun] at h
    cases f with
    | some fl => cases fl <;> simp at h
    | none =>
      dsimp only at h
      by_cases hemp : rows.isEmpty
      · rw [if_pos hemp] at h; simp at h
      · rw [if_neg hemp] at h
        simp only [MainOutcome.exported.injEq] at h
        subst h
        have hmem : r ∈ rows := (dedupAux_sublist rows []).subset hr
        rcases runLocationsSimple_prov fetch LOCATIONS [] r (by rw [hrun]; exact hmem) with h | h
        · simp at h
        · exact h

lemma mainV1_exported (census : String → CensusOutcome) (fetch : Fetcher) (out : List JobRow)
    (h : mainV1 census fetch = .exported out) :
    ∃ towns rows, getSmallTowns census = .ok towns ∧
      runLocationsV1 fetch towns [] = (rows, none) ∧ out = dedupRows rows := by
  unfold mainV1 at h
  cases ht : getSmallTowns census with
  | exn => rw [ht] at h; simp at h
  | interrupt => rw [ht] at h; simp at h
  | ok towns =>
    rw [ht] at h
    dsimp only at h
    cases hrun : runLocationsV1 fetch towns [] with
    | mk rows f =>
      rw [hrun] at h
      cases f with
      | some fl => cases fl <;> simp at h
      | none =>
        dsimp only at h
        by_cases hemp : rows.isEmpty
        · rw [if_pos hemp] at h; simp at h
        · rw [if_neg hemp] at h
          simp only [MainOutcome.exported.injEq] at h
          exact ⟨towns, rows, rfl, hrun, h.symm⟩

lemma scriptV1_saved (census : String → CensusOutcome) (fetch : Fetcher) (out : List JobRow)
    (h : scriptV1 census fetch = .savedFile out) : mainV1 census fetch = .exported out := by
  unfold scriptV1 at h
  cases hm : mainV1 census fetch <;> rw [hm] at h <;> simp at h
  · rw [h]

lemma scriptV1_prov (census : String → CensusOutcome) (fetch : Fetcher) (out : List JobRow)
    (h : scriptV1 census fetch = .savedFile out) :
    ∀ r ∈ out, RowProvV1 fetch r := by
  intro r hr
  obtain ⟨towns, rows, _, hrun, hout⟩ := mainV1_exported census fetch out (scriptV1_saved census fetch out h)
  subst hout
  have hmem : r ∈ rows := (dedupAux_sublist rows []).subset hr
  rcases runLocationsV1_prov fetch towns [] r (by rw [hrun]; exact hmem) with h2 | h2
  · simp at h2
  · exact h2

lemma simple_phone_source (fetch : Fetcher) (link p : String) (w : Option String)
    (h : getContactInfoSimple fetch link = .ok (some p, w)) :
    ∃ doc, fetch link = .ok doc ∧ phoneSearch (getTextStrip doc.dom " ") = some p := by
  rcases getContactInfoSimple_spec fetch link (some p) w h with ⟨_, hp, _⟩ | ⟨doc, hf, hp, _⟩
  · exact absurd hp (by simp)
  · exact ⟨doc, hf, hp.symm⟩

lemma v1_phone_source (fetch : Fetcher) (link p : String) (w : Option String)
    (h : getContactInfoV1 fetch link = .ok (some p, w)) :
    ∃ doc, fetch link = .ok doc ∧
      (phoneSearch (getTextStrip doc.dom " ") = some p ∨
       (phoneSearch (getTextStrip doc.dom " ") = none ∧
        ∃ w0 doc2, fetch w0 = .ok doc2 ∧ phoneSearch doc2.raw = some p)) := by
  rcases getContactInfoV1_spec fetch link (some p) w h with ⟨_, hp, _⟩ | ⟨doc, hf, _, hrest⟩
  · exact absurd hp (by simp)
  · refine ⟨doc, hf, ?_⟩
    rcases hrest with ⟨hp, _⟩ | ⟨hnone, w0, _, hcase⟩
    · exact Or.inl hp.symm
    · refine Or.inr ⟨hnone, ?_⟩
      rcases hcase with ⟨doc2, hf2, hp2⟩ | ⟨_, habs⟩
      · exact ⟨w0, doc2, hf2, hp2.symm⟩
      · exact absurd habs (by simp)

/-- Claim C6: every phone-pattern match contains exactly ten digit characters;
a successful search returns the leftmost match in the text; and every output
record's phone, when present, is the result of that search over the page text
it was taken from — the detail page's visible text for `scrapper_simple.py`,
and for `scrapperv1.py` either the detail page's visible text or, when that
text had no match, the raw content of the fetched fallback website. -/
theorem claim_C6 :
    (∀ (prev : Option Char) (s m : List Char), matchPhoneAt prev s = some m →
      (m.filter (fun c => c.isDigit)).length = 10) ∧
    (∀ (t p : String), phoneSearch t = some p →
      ∃ i, i < t.toList.length ∧
        matchPhoneAt (prevAt t.toList i) (t.toList.drop i) = some p.toList ∧
        ∀ j < i, matchPhoneAt (prevAt t.toList j) (t.toList.drop j) = none) ∧
    (∀ (fetch : Fetcher) (out : List JobRow) (r : JobRow) (p : String),
      mainSimple fetch = .exported out → r ∈ out → r.phone = some p →
      ∃ url doc, fetch url = .ok doc ∧ phoneSearch (getTextStrip doc.dom " ") = some p) ∧
    (∀ (census : String → CensusOutcome) (fetch : Fetcher) (out : List JobRow) (r : JobRow) (p : String),
      scriptV1 census fetch = .savedFile out → r ∈ out → r.phone = some p →
      ∃ url doc, fetch url = .ok doc ∧
        (phoneSearch (getTextStrip doc.dom " ") = some p ∨
         (phoneSearch (getTextStrip doc.dom " ") = none ∧
          ∃ w doc2, fetch w = .ok doc2 ∧ phoneSearch doc2.raw = some p))) := by
  refine ⟨matchPhoneAt_digits, ?_, ?_, ?_⟩
  · intro t p h
    unfold phoneSearch at h
    cases hs : searchFrom none t.toList with
    | none => rw [hs] at h; simp at h
    | some m =>
      rw [hs] at h
      simp only [Option.map_some', Option.some.injEq] at h
      subst h
      obtain ⟨i, hi, hmat, hnone⟩ := searchFrom_spec t.toList none m hs
      exact ⟨i, hi, by simpa [prevAt] using hmat, fun j hj => by simpa [prevAt] using hnone j hj⟩
  · intro fetch out r p hmain hr hp
    rcases mainSimple_prov fetch out hmain r hr with ⟨url, doc, hf, hcase⟩
    rcases hcase with ⟨card, hc, t1, t2, a, href, h1, h2, h3, h4, hfirm, hrole, h5⟩ |
      ⟨card, hc, t1, t2, a, href, h1, h2, h3, h4, hfirm, hrole, h5⟩
    · rw [hp] at h5
      obtain ⟨doc2, hf2, hps⟩ := simple_phone_source fetch _ p r.website h5
      exact ⟨_, doc2, hf2, hps⟩
    · rw [hp] at h5
      obtain ⟨doc2, hf2, hps⟩ := simple_phone_source fetch _ p r.website h5
      exact ⟨_, doc2, hf2, hps⟩
  · intro census fetch out r p hmain hr hp
    rcases scriptV1_prov census fetch out hmain r hr with ⟨url, doc, hf, hcase⟩
    rcases hcase with ⟨card, hc, t1, t2, a, href, h1, h2, h3, h4, hfirm, hrole, h5⟩ |
      ⟨card, hc, t1, t2, a, href, h1, h2, h3, h4, hfirm, hrole, h5⟩
    · rw [hp] at h5
      obtain ⟨doc2, hf2, hps⟩ := v1_phone_source fetch _ p r.website h5
      rcases hps with hl | ⟨hn, w0, doc3, hf3, hp3⟩
      · exact ⟨_, doc2, hf2, Or.inl hl⟩
      · exact ⟨_, doc2, hf2, Or.inr ⟨hn, w0, doc3, hf3, hp3⟩⟩
    · rw [hp] at h5
      obtain ⟨doc2, hf2, hps⟩ := v1_phone_source fetch _ p r.website h5
      rcases hps with hl | ⟨hn, w0, doc3, hf3, hp3⟩
      · exact ⟨_, doc2, hf2, Or.inl hl⟩
      · exact ⟨_, doc2, hf2, Or.inr ⟨hn, w0, doc3, hf3, hp3⟩⟩

theorem claim_C6_witness :
    ((("555-123-4567").toList.filter (fun c => c.isDigit)).length = 10) :=
  claim_C6.1 none ("555-123-4567").toList ("555-123-4567").toList (by decide)

lemma simple_site_source (fetch : Fetcher) (link w : String) (p : Option String)
    (h : getContactInfoSimple fetch link = .ok (p, some w)) :
    ∃ doc, fetch link = .ok doc ∧ (hrefLinks doc.dom).find? linkOkSimple = some w := by
  rcases getContactInfoSimple_spec fetch link p (some w) h with ⟨_, _, hw⟩ | ⟨doc, hf, _, hw⟩
  · exact absurd hw (by simp)
  · exact ⟨doc, hf, hw.symm⟩

lemma v1_site_source (fetch : Fetcher) (link w : String) (p : Option String)
    (h : getContactInfoV1 fetch link = .ok (p, some w)) :
    ∃ doc, fetch link = .ok doc ∧ (hrefLinks doc.dom).find? linkOkV1 = some w := by
  rcases getContactInfoV1_spec fetch link p (some w) h with ⟨_, _, hw⟩ | ⟨doc, hf, hw, _⟩
  · exact absurd hw (by simp)
  · exact ⟨doc, hf, hw.symm⟩

lemma linkOkSimple_true {w : String} (h : linkOkSimple w = true) :
    strStarts w "http" = true ∧ strHasChar w '@' = false ∧ strStarts w "mailto" = false := by
  simp only [linkOkSimple, Bool.and_eq_true, Bool.not_eq_true'] at h
  exact ⟨h.1.1, h.1.2, h.2⟩

lemma linkOkV1_true {w : String} (h : linkOkV1 w = true) :
    strStarts w "http" = true ∧ strHasChar w '@' = false ∧ strStarts w "mailto:" = false := by
  simp only [linkOkV1, Bool.and_eq_true, Bool.not_eq_true'] at h
  exact ⟨h.1.1, h.1.2, h.2⟩

/-- Claim C7 (amended): every output website is the target of the first link
element in document order whose href starts with the four characters `http`,
contains no `@`, and does not start with `mailto` (`mailto:` in
`scrapperv1.py`).  The `startswith("http")` test does not require a full
HTTP(S) scheme, so a target such as `httpfoo.example` also qualifies. -/
theorem claim_C7 :
    (∀ (fetch : Fetcher) (out : List JobRow) (r : JobRow) (w : String),
      mainSimple fetch = .exported out → r ∈ out → r.website = some w →
      strStarts w "http" = true ∧ strHasChar w '@' = false ∧ strStarts w "mailto" = false ∧
      ∃ url doc, fetch url = .ok doc ∧ (hrefLinks doc.dom).find? linkOkSimple = some w) ∧
    (∀ (census : String → CensusOutcome) (fetch : Fetcher) (out : List JobRow) (r : JobRow) (w : String),
      scriptV1 census fetch = .savedFile out → r ∈ out → r.website = some w →
      strStarts w "http" = true ∧ strHasChar w '@' = false ∧ strStarts w "mailto:" = false ∧
      ∃ url doc, fetch url = .ok doc ∧ (hrefLinks doc.dom).find? linkOkV1 = some w) := by
  constructor
  · intro fetch out r w hmain hr hw
    have hsite : ∃ doc2link, (∃ doc, fetch doc2link = .ok doc ∧
        (hrefLinks doc.dom).find? linkOkSimple = some w) := by
      rcases mainSimple_prov fetch out hmain r hr with ⟨url, doc, hf, hcase⟩
      rcases hcase with ⟨card, hc, t1, t2, a, href, h1, h2, h3, h4, hfirm, hrole, h5⟩ |
        ⟨card, hc, t1, t2, a, href, h1, h2, h3, h4, hfirm, hrole, h5⟩
      · rw [hw] at h5
        exact ⟨_, simple_site_source fetch _ w r.phone h5⟩
      · rw [hw] at h5
        exact ⟨_, simple_site_source fetch _ w r.phone h5⟩
    obtain ⟨link, doc, hf, hfind⟩ := hsite
    have hok := linkOkSimple_true (List.find?_some hfind)
    exact ⟨hok.1, hok.2.1, hok.2.2, link, doc, hf, hfind⟩
  · intro census fetch out r w hmain hr hw
    have hsite : ∃ doc2link, (∃ doc, fetch doc2link = .ok doc ∧
        (hrefLinks doc.dom).find? linkOkV1 = some w) := by
      rcases scriptV1_prov census fetch out hmain r hr with ⟨url, doc, hf, hcase⟩
      rcases hcase with ⟨card, hc, t1, t2, a, href, h1, h2, h3, h4, hfirm, hrole, h5⟩ |
        ⟨card, hc, t1, t2, a, href, h1, h2, h3, h4, hfirm, hrole, h5⟩
      · rw [hw] at h5
        exact ⟨_, v1_site_source fetch _ w r.phone h5⟩
      · rw [hw] at h5
        exact ⟨_, v1_site_source fetch _ w r.phone h5⟩
    obtain ⟨link, doc, hf, hfind⟩ := hsite
    have hok := linkOkV1_true (List.find?_some hfind)
    exact ⟨hok.1, hok.2.1, hok.2.2, link, doc, hf, hfind⟩

/-- The detail page of the C7 counterexample: its first (and only) link target
starts with `http` but carries no HTTP(S) scheme. -/
def detailDocC7 : Doc := ⟨"", .elem "html" [] [] [
  .text "Contact us",
  .elem "a" [] [("href", "httpfoo.example")] [.text "site"]]⟩

/-- The Archinect listing card of the C7 counterexample. -/
def cardC7 : Node := .elem "div" ["job-listing"] [] [
  .elem "h2" ["job-listing-title"] [] [.text "Acme Architects"],
  .elem "div" ["job-position"] [] [.text "Designer"],
  .elem "a" [] [("href", "/jobs/77")] [.text "view"]]

/-- The listing page of the C7 counterexample. -/
def listingDocC7 : Doc := ⟨"", .elem "html" [] [] [cardC7]⟩

/-- The network environment of the C7 counterexample. -/
def fetchC7 : Fetcher := fun u =>
  if u = archUrl "TX" "Fort Worth" then .ok listingDocC7
  else if u = "https://archinect.com/jobs/77" then .ok detailDocC7
  else .exn

theorem claim_C7_cex :
    mainSimple fetchC7 =
      .exported [⟨"Acme Architects", "Designer", none, some "httpfoo.example"⟩] ∧
    startsWithHttpScheme "httpfoo.example" = false :=
  ⟨by decide, by decide⟩

theorem claim_C7_witness :
    strStarts "httpfoo.example" "http" = true ∧
    strHasChar "httpfoo.example" '@' = false ∧
    strStarts "httpfoo.example" "mailto" = false ∧
    ∃ url doc, fetchC7 url = .ok doc ∧
      (hrefLinks doc.dom).find? linkOkSimple = some "httpfoo.example" :=
  claim_C7.1 fetchC7 [⟨"Acme Architects", "Designer", none, some "httpfoo.example"⟩]
    ⟨"Acme Architects", "Designer", none, some "httpfoo.example"⟩ "httpfoo.example"
    (by decide) (by decide) rfl

/-- Claim C8 (amended): every record in either pipeline's output takes its
firm name and role title from the stripped text of a firm element and a role
element that are present in a card of a fetched listing page (the guard only
checks that the elements exist, so either string may be empty). -/
theorem claim_C8 :
    (∀ (fetch : Fetcher) (out : List JobRow) (r : JobRow),
      mainSimple fetch = .exported out → r ∈ out → RowProvSimple fetch r) ∧
    (∀ (census : String → CensusOutcome) (fetch : Fetcher) (out : List JobRow) (r : JobRow),
      scriptV1 census fetch = .savedFile out → r ∈ out → RowProvV1 fetch r) :=
  ⟨fun fetch out r hmain hr => mainSimple_prov fetch out hmain r hr,
   fun census fetch out r hmain hr => scriptV1_prov census fetch out hmain r hr⟩

/-- The Archinect listing card of the C8 counterexample: the firm element is
present but contains no text at all. -/
def cardC8 : Node := .elem "div" ["job-listing"] [] [
  .elem "h2" ["job-listing-title"] [] [],
  .elem "div" ["job-position"] [] [.text "Architect"],
  .elem "a" [] [("href", "/jobs/8")] [.text "view"]]

/-- The listing page of the C8 counterexample. -/
def listingDocC8 : Doc := ⟨"", .elem "html" [] [] [cardC8]⟩

/-- The network environment of the C8 counterexample. -/
def fetchC8 : Fetcher := fun u =>
  if u = archUrl "TX" "Fort Worth" then .ok listingDocC8 else .exn

theorem claim_C8_cex :
    mainSimple fetchC8 = .exported [⟨"", "Architect", none, none⟩] ∧
    (JobRow.mk "" "Architect" none none).firm_name = "" :=
  ⟨by decide, rfl⟩

theorem claim_C8_witness :
    RowProvSimple fetchC8 ⟨"", "Architect", none, none⟩ :=
  claim_C8.1 fetchC8 [⟨"", "Architect", none, none⟩] ⟨"", "Architect", none, none⟩
    (by decide) (by decide)

lemma scrapeCardsArchSimple_noexn (fetch : Fetcher) :
    ∀ (cards : List Node) (acc : List JobRow),
      (scrapeCardsArchSimple fetch cards acc).2 ≠ some Fail.exn := by
  intro cards
  induction cards with
  | nil => intro acc; simp [scrapeCardsArchSimple]
  | cons card rest ih =>
    intro acc
    unfold scrapeCardsArchSimple
    cases selectOne "job-listing-title" card with
    | none => exact ih acc
    | some t1 =>
      cases selectOne "job-position" card with
      | none => exact ih acc
      | some t2 =>
        dsimp only
        cases firstA card with
        | none => simp
        | some a =>
          dsimp only
          cases getAttr a "href" with
          | none => simp
          | some href =>
            dsimp only
            cases getContactInfoSimple fetch ("https://archinect.com" ++ href) with
            | ok pr =>
              obtain ⟨ph, site⟩ := pr
              dsimp only
              exact ih _
            | exn => simp
            | interrupt => simp

lemma scrapeCardsAiaSimple_noexn (fetch : Fetcher) :
    ∀ (cards : List Node) (acc : List JobRow),
      (scrapeCardsAiaSimple fetch cards acc).2 ≠ some Fail.exn := by
  intro cards
  induction cards with
  | nil => intro acc; simp [scrapeCardsAiaSimple]
  | cons card rest ih =>
    intro acc
    unfold scrapeCardsAiaSimple
    cases selectOne "job-listing__info--name" card with
    | none => exact ih acc
    | some t1 =>
      cases selectOne "job-listing__info--title" card with
      | none => exact ih acc
      | some t2 =>
        dsimp only
        cases firstA card with
        | none => simp
        | some a =>
          dsimp only
          cases getAttr a "href" with
          | none => simp
          | some href =>
            dsimp only
            cases getContactInfoSimple fetch href with
            | ok pr =>
              obtain ⟨ph, site⟩ := pr
              dsimp only
              exact ih _
            | exn => simp
            | interrupt => simp

/-- Claim C1 (amended): a failed initial fetch yields an empty sequence for
that location/source pair in every variant, and in `scrapper_simple.py` no
exception ever escapes a scrape — a failure inside the card loop merely ends
it with the rows gathered so far, so the other source's rows for the same
location still reach the accumulator.  In `scrapperv1.py`, however, a card
whose anchor (or anchor `href`) is missing raises out of the generator. -/
theorem claim_C1 (fetch : Fetcher) (city state : String) :
    (fetch (archUrl state city) = .exn → scrapeArchinectV1 fetch city state = ([], none)) ∧
    (fetch (aiaUrlV1 city state) = .exn → scrapeAiaV1 fetch city state = ([], none)) ∧
    (fetch (archUrl state city) = .exn → scrapeArchinectSimple fetch city state = ([], none)) ∧
    (fetch (aiaUrlSimple city state) = .exn → scrapeAiaSimple fetch city state = ([], none)) ∧
    ((scrapeArchinectSimple fetch city state).2 ≠ some Fail.exn) ∧
    ((scrapeAiaSimple fetch city state).2 ≠ some Fail.exn) ∧
    (∀ (rest : List (String × String)) (acc r2 : List JobRow),
      fetch (archUrl state city) = .exn →
      scrapeAiaSimple fetch city state = (r2, none) →
      runLocationsSimple fetch ((city, state) :: rest) acc
        = runLocationsSimple fetch rest (acc ++ r2)) := by
  refine ⟨?_, ?_, ?_, ?_, ?_, ?_, ?_⟩
  · intro hf; unfold scrapeArchinectV1; rw [hf]
  · intro hf; unfold scrapeAiaV1; rw [hf]
  · intro hf; unfold scrapeArchinectSimple; rw [hf]
  · intro hf; unfold scrapeAiaSimple; rw [hf]
  · unfold scrapeArchinectSimple
    cases fetch (archUrl state city) with
    | exn => simp
    | interrupt => simp
    | ok doc => exact scrapeCardsArchSimple_noexn fetch _ []
  · unfold scrapeAiaSimple
    cases fetch (aiaUrlSimple city state) with
    | exn => simp
    | interrupt => simp
    | ok doc => exact scrapeCardsAiaSimple_noexn fetch _ []
  · intro rest acc r2 hf haia
    have h1 : scrapeArchinectSimple fetch city state = ([], none) := by
      unfold scrapeArchinectSimple; rw [hf]
    conv_lhs => rw [runLocationsSimple]
    rw [h1]
    dsimp only
    rw [haia]
    dsimp only
    simp

theorem claim_C1_witness :
    scrapeArchinectV1 (fun _ => FetchOutcome.exn) "Bozeman" "MT" = ([], none) ∧
    scrapeAiaSimple (fun _ => FetchOutcome.exn) "Bozeman" "MT" = ([], none) :=
  ⟨(claim_C1 (fun _ => FetchOutcome.exn) "Bozeman" "MT").1 rfl,
   (claim_C1 (fun _ => FetchOutcome.exn) "Bozeman" "MT").2.2.2.1 rfl⟩

/-- The Archinect card of the C1 counterexample: firm and role elements are
present but there is no anchor, so `card.a["href"]` raises in `scrapperv1.py`. -/
def cardC1 : Node := .elem "div" ["job-listing"] [] [
  .elem "h2" ["job-listing-title"] [] [.text "Delta Architecture"],
  .elem "div" ["job-position"] [] [.text "Project Architect"]]

/-- The Archinect listing page of the C1 counterexample. -/
def listingDocC1 : Doc := ⟨"", .elem "html" [] [] [cardC1]⟩

/-- The AIA card of the C1 counterexample: fully well-formed. -/
def aiaCardC1 : Node := .elem "article" ["job-listing"] [] [
  .elem "div" ["job-listing__info--name"] [] [.text "Echo Design"],
  .elem "div" ["job-listing__info--title"] [] [.text "Drafter"],
  .elem "a" [] [("href", "http://detail.example/2")] []]

/-- The AIA listing page of the C1 counterexample. -/
def aiaListingDocC1 : Doc := ⟨"", .elem "html" [] [] [aiaCardC1]⟩

/-- The census environment of the C1 counterexample: one small Kansas town. -/
def censusC1 : String → CensusOutcome := fun _ =>
  .ok [("NAME", "POP", "state", "place"), ("Smalltown, Kansas", "900", "20", "001")]

/-- The network environment of the C1 counterexample. -/
def fetchC1 : Fetcher := fun u =>
  if u = archUrl "KS" "Smalltown" then .ok listingDocC1
  else if u = aiaUrlV1 "Smalltown" "KS" then .ok aiaListingDocC1
  else .exn

theorem claim_C1_cex :
    scrapeArchinectV1 fetchC1 "Smalltown" "KS" = ([], some Fail.exn) ∧
    (scrapeAiaV1 fetchC1 "Smalltown" "KS").1 = [⟨"Echo Design", "Drafter", none, none⟩] ∧
    scriptV1 censusC1 fetchC1 = .crashed :=
  ⟨by decide, by decide, by decide⟩

/-- Claim C9 (amended): a `KeyboardInterrupt` during the run propagates out of
`main()` and is caught only by the top-level handler, which terminates the
process cleanly — but nothing is exported: the records accumulated before the
interrupt are discarded, not returned. -/
theorem claim_C9 (census : String → CensusOutcome) (fetch : Fetcher) :
    (mainV1 census fetch = .interruptOut → scriptV1 census fetch = .cleanNoOutput) ∧
    (∀ (towns : List (String × String)) (rows : List JobRow),
      getSmallTowns census = .ok towns →
      runLocationsV1 fetch towns [] = (rows, some Fail.interrupt) →
      scriptV1 census fetch = .cleanNoOutput) := by
  constructor
  · intro h; unfold scriptV1; rw [h]
  · intro towns rows ht hrun
    have hm : mainV1 census fetch = .interruptOut := by
      unfold mainV1
      rw [ht]
      dsimp only
      rw [hrun]
    unfold scriptV1
    rw [hm]

/-- A working Archinect listing page for the C9 counterexample. -/
def archListingDocC9 : Doc := ⟨"", .elem "html" [] [] [
  .elem "div" ["job-listing"] [] [
    .elem "h2" ["job-listing-title"] [] [.text "Delta Architecture"],
    .elem "div" ["job-position"] [] [.text "Project Architect"],
    .elem "a" [] [("href", "/jobs/9")] [.text "view"]]]⟩

/-- The network environment of the C9 counterexample (Archinect succeeds with
one card, the AIA fetch is interrupted). -/
def fetchC9b : Fetcher := fun u =>
  if u = archUrl "KS" "Smalltown" then .ok archListingDocC9
  else if u = aiaUrlV1 "Smalltown" "KS" then .interrupt
  else .exn

theorem claim_C9_cex :
    runLocationsV1 fetchC9b [("Smalltown", "KS")] []
      = ([⟨"Delta Architecture", "Project Architect", none, none⟩], some Fail.interrupt) ∧
    scriptV1 censusC1 fetchC9b = .cleanNoOutput :=
  ⟨by decide, by decide⟩

theorem claim_C9_witness :
    scriptV1 censusC1 fetchC9b = .cleanNoOutput :=
  (claim_C9 censusC1 fetchC9b).2 [("Smalltown", "KS")]
    [⟨"Delta Architecture", "Project Architect", none, none⟩] (by decide) (by decide)
